import Mathlib

/-!
A verification development for the incentive-scheme execution engine of this
repository.  The authoritative implementation is `src/runtime/schemes/runScheme.js`;
this file gives a shallow embedding of its helper functions (`parseCSV` output rows,
`parseDate`, `evaluateRule`, `findManager`, `calculateTieredPayout`) and of the
main `runScheme` pipeline (record filtering, grouping, exclusion/adjustment rules,
qualification, quota gating, tiered payout, credit splits, error handling), and
proves or refutes the behavioural claims about it.

Modelling conventions:
* `decimal.js` values are modelled as exact rationals (`ℚ`).  The JS library
  performs exact decimal arithmetic for the magnitudes occurring here (default
  20 significant digits); rounding of extreme magnitudes is not modelled.
* Arithmetic on `ℚ` is expressed through small kernel-computable wrappers
  (`qadd`, `qmul`, `div100`, `qleB`, ...) built from `mkRat`/`num`/`den`, each
  proven equal to the corresponding field operation, so that concrete runs of
  the embedded engine can be evaluated by `decide`.
* CSV rows are field-keyed records (`Row`), as produced by `parseCSV`; CSV text
  parsing itself is out of scope (the spec treats it as an external collaborator).
  The JS engine attaches a random `recordInternalId` to each row; the model takes
  the identifier as given on the row (`Row.rid`).
* Dates are parsed from `YYYY-MM-DD` strings to the integer `y*10000 + m*100 + d`,
  which is ordered exactly like the corresponding UTC-midnight timestamps.  The
  lenient non-ISO fallback of the JS `Date` constructor is not modelled.
* JS `undefined` flowing into `String(...)` is modelled as the string
  "undefined", and `undefined`/`''` flowing into `new Decimal(x || 0)` as `0`,
  matching the JS semantics of the code paths embedded here.
* `logEvent` timestamps and the purely presentational message strings of log
  entries are not modelled; the structured fields (rule type, rule id, record id,
  agent id, matched flag) are.
* JS `for...in` iteration over the per-agent table is modelled as
  first-appearance (insertion) order; the claims below only use agent ids for
  which JS insertion order applies (non integer-like keys).

The repository carries a second, near-duplicate engine copy in
`src/src/types/index.ts`.  Its five-parameter `findManager(agentId, level,
hierarchyData, schemeEffectiveFrom, runAsDate)` — the level-aware,
case-insensitive, window-overlap hierarchy lookup — is embedded below in the
`IndexTs` namespace; the rest of this file concerns `runScheme.js`.
-/

namespace IncentiveEngine

/-! ### Kernel-computable rational arithmetic

`Rat.add`, `Rat.mul`, `Rat.blt`, ... do not reduce in the kernel, while
`mkRat`, `Rat.num`, `Rat.den` and `Int` arithmetic do.  The embedded engine
therefore uses the wrappers below; each is proven equal to the corresponding
field operation on `ℚ`. -/

def qadd (a b : ℚ) : ℚ := mkRat (a.num * b.den + b.num * a.den) (a.den * b.den)

def qneg (a : ℚ) : ℚ := mkRat (-a.num) a.den

def qsub (a b : ℚ) : ℚ := mkRat (a.num * b.den - b.num * a.den) (a.den * b.den)

def qmul (a b : ℚ) : ℚ := mkRat (a.num * b.num) (a.den * b.den)

/-- Division by 100 (`Decimal.div(100)`); the engine divides by no other value. -/
def div100 (a : ℚ) : ℚ := mkRat a.num (a.den * 100)

/-- Boolean `a ≤ b` on `ℚ` by cross multiplication. -/
def qleB (a b : ℚ) : Bool := decide (a.num * (b.den : ℤ) ≤ b.num * (a.den : ℤ))

/-- Boolean `a < b` on `ℚ` by cross multiplication. -/
def qltB (a b : ℚ) : Bool := decide (a.num * (b.den : ℤ) < b.num * (a.den : ℤ))

def qmax (a b : ℚ) : ℚ := if qleB a b then b else a

def qmin (a b : ℚ) : ℚ := if qleB a b then a else b

lemma den_cast_ne_zero (a : ℚ) : ((a.den : ℚ)) ≠ 0 := by
  exact_mod_cast a.den_nz

lemma num_eq_mul_den (a : ℚ) : (a.num : ℚ) = a * (a.den : ℚ) :=
  (div_eq_iff (den_cast_ne_zero a)).mp (Rat.num_div_den a)

lemma mul_den_cast_ne_zero (a b : ℚ) : (((a.den * b.den : ℕ)) : ℚ) ≠ 0 := by
  exact_mod_cast Nat.mul_ne_zero a.den_nz b.den_nz

lemma qadd_eq (a b : ℚ) : qadd a b = a + b := by
  unfold qadd
  rw [Rat.mkRat_eq_div, div_eq_iff (mul_den_cast_ne_zero a b)]
  push_cast
  rw [num_eq_mul_den a, num_eq_mul_den b]
  ring

lemma qneg_eq (a : ℚ) : qneg a = -a := by
  unfold qneg
  rw [Rat.mkRat_eq_div, div_eq_iff (den_cast_ne_zero a)]
  push_cast
  rw [num_eq_mul_den a]
  ring

lemma qsub_eq (a b : ℚ) : qsub a b = a - b := by
  unfold qsub
  rw [Rat.mkRat_eq_div, div_eq_iff (mul_den_cast_ne_zero a b)]
  push_cast
  rw [num_eq_mul_den a, num_eq_mul_den b]
  ring

lemma qmul_eq (a b : ℚ) : qmul a b = a * b := by
  unfold qmul
  rw [Rat.mkRat_eq_div, div_eq_iff (mul_den_cast_ne_zero a b)]
  push_cast
  rw [num_eq_mul_den a, num_eq_mul_den b]
  ring

lemma den_mul_100_cast_ne_zero (a : ℚ) : (((a.den * 100 : ℕ)) : ℚ) ≠ 0 := by
  exact_mod_cast Nat.mul_ne_zero a.den_nz (by norm_num)

lemma div100_eq (a : ℚ) : div100 a = a / 100 := by
  unfold div100
  rw [Rat.mkRat_eq_div, div_eq_div_iff (den_mul_100_cast_ne_zero a) (by norm_num)]
  push_cast
  rw [num_eq_mul_den a]
  ring

lemma qleB_iff (a b : ℚ) : qleB a b = true ↔ a ≤ b := by
  simp [qleB, Rat.le_def]

lemma qltB_iff (a b : ℚ) : qltB a b = true ↔ a < b := by
  simp [qltB, Rat.lt_def]

lemma qmax_eq (a b : ℚ) : qmax a b = max a b := by
  unfold qmax
  rcases le_or_lt a b with h | h
  · rw [if_pos ((qleB_iff a b).mpr h), max_eq_right h]
  · rw [if_neg (by simp [qleB_iff]; exact h), max_eq_left h.le]

lemma qmin_eq (a b : ℚ) : qmin a b = min a b := by
  unfold qmin
  rcases le_or_lt a b with h | h
  · rw [if_pos ((qleB_iff a b).mpr h), min_eq_left h]
  · rw [if_neg (by simp [qleB_iff]; exact h), min_eq_right h.le]

/-! ### Char/string helpers

`String.ltb`, `String.splitOn` and friends are built on UTF-8 iterators and do
not reduce in the kernel; the engine's string operations are therefore embedded
over `List Char` directly. -/

/-- JS relational comparison on strings: lexicographic by code unit.
(Lean chars are code points; the difference only matters beyond the BMP.) -/
def charListLtB : List Char → List Char → Bool
  | [], [] => false
  | [], _ :: _ => true
  | _ :: _, [] => false
  | a :: as, b :: bs =>
    if a.toNat < b.toNat then true
    else if b.toNat < a.toNat then false
    else charListLtB as bs

def jsStrLtB (a b : String) : Bool := charListLtB a.toList b.toList

/-- `a.includes(b)` on JS strings. -/
def strIncludesAux (needle : List Char) : List Char → Bool
  | [] => needle.isPrefixOf []
  | c :: rest => needle.isPrefixOf (c :: rest) || strIncludesAux needle rest

def strIncludes (a b : String) : Bool := strIncludesAux b.toList a.toList

/-- Split a character list at every occurrence of `sep` (models `String.split`). -/
def splitCharAux (sep : Char) : List Char → List (List Char)
  | [] => [[]]
  | x :: rest =>
    let r := splitCharAux sep rest
    if x = sep then [] :: r
    else
      match r with
      | [] => [[x]]
      | g :: gs => (x :: g) :: gs

def digitVal? (c : Char) : Option ℕ :=
  if c.isDigit then some (c.toNat - 48) else none

/-- Parse a non-empty all-digit character list as a natural number. -/
def natOfDigits? : List Char → Option ℕ
  | [] => none
  | cs => cs.foldl (fun acc c => acc.bind fun n => (digitVal? c).map fun d => n * 10 + d)
      (some 0)

/-- The value-parsing performed by `new Decimal(string)`: optional sign, integer
part, optional fractional part.  (Exponent and non-decimal bases accepted by
decimal.js are not modelled; no input below uses them.) -/
def parseDecimal (s : String) : Option ℚ :=
  match s.toList with
  | [] => none
  | c :: rest =>
    let (neg, body) :=
      if c = '-' then (true, rest)
      else if c = '+' then (false, rest)
      else (false, c :: rest)
    match splitCharAux '.' body with
    | [ip] =>
      (natOfDigits? ip).map fun n => if neg then qneg (mkRat n 1) else mkRat n 1
    | [ip, fp] =>
      if ip = [] ∧ fp = [] then none
      else
        let ipn := if ip = [] then some 0 else natOfDigits? ip
        let fpn := if fp = [] then some 0 else natOfDigits? fp
        match ipn, fpn with
        | some a, some b =>
          let mag : ℚ := mkRat (a * 10 ^ fp.length + b) (10 ^ fp.length)
          some (if neg then qneg mag else mag)
        | _, _ => none
    | _ => none

/-! ### Dates

`parseDate` accepts `YYYY-MM-DD` and yields a value at UTC midnight; the model
encodes that day as `y*10000 + m*100 + d : ℕ`, which carries exactly the
ordering of the corresponding timestamps.  The lenient fallback parse of the JS
`Date` constructor for other formats is not modelled (no input below uses it). -/

def isLeapYear (y : ℕ) : Bool := (y % 4 = 0 && y % 100 ≠ 0) || y % 400 = 0

def daysInMonth (y m : ℕ) : ℕ :=
  if m = 2 then (if isLeapYear y then 29 else 28)
  else if m = 4 ∨ m = 6 ∨ m = 9 ∨ m = 11 then 30
  else 31

def parseDate (s : String) : Option ℕ :=
  match splitCharAux '-' s.toList with
  | [ys, ms, ds] =>
    if ys.length = 4 ∧ ms.length = 2 ∧ ds.length = 2 then
      match natOfDigits? ys, natOfDigits? ms, natOfDigits? ds with
      | some y, some m, some d =>
        if 1 ≤ m ∧ m ≤ 12 ∧ 1 ≤ d ∧ d ≤ daysInMonth y m then
          some (y * 10000 + m * 100 + d)
        else none
      | _, _, _ => none
    else none
  | _ => none

/-! ### JS values and `evaluateRule` -/

/-- A JS scalar as it occurs in rule literals and evaluated aggregates:
a string, a `Decimal`/number, or a boolean. -/
inductive JSVal where
  | vstr (s : String)
  | vnum (q : ℚ)
  | vbool (b : Bool)
deriving Repr, DecidableEq

/-- Decimal digits of the fractional part `num/den` (at most `fuel` digits,
stopping at remainder zero).  `Decimal.toString` prints at most 20 significant
digits by default; rationals without a finite decimal expansion are rendered
approximately, which no code path below relies on. -/
def fracDigitsAux : ℕ → ℕ → ℕ → List Char
  | 0, _, _ => []
  | _ + 1, 0, _ => []
  | fuel + 1, r, den =>
    let r10 := r * 10
    Char.ofNat (48 + r10 / den) :: fracDigitsAux fuel (r10 % den) den

/-- `String(x)` for a number/Decimal value. -/
def jsNumToString (q : ℚ) : String :=
  let sign := if qltB q 0 then "-" else ""
  let n := q.num.natAbs
  let ip := n / q.den
  let frac := fracDigitsAux 20 (n % q.den) q.den
  if frac = [] then sign ++ toString ip
  else sign ++ toString ip ++ "." ++ String.mk frac

/-- `String(x)` for a JS scalar. -/
def jsToString : JSVal → String
  | .vstr s => s
  | .vnum q => jsNumToString q
  | .vbool b => if b then "true" else "false"

/-- `new Decimal(x)` on a JS scalar: `Option` models the thrown exception. -/
def toDec? : JSVal → Option ℚ
  | .vstr s => parseDecimal s
  | .vnum q => some q
  | .vbool _ => none

/-- `evaluateRule(recordValue, operator, ruleValue, dataType)` from
`runScheme.js`.  For `'Number'` both operands are converted by `new Decimal`,
a conversion failure making every operator false; for `'Date'` the function
requires `Date` instances, which the engine never passes (it hands over raw
record strings), so every `'Date'` comparison is false; otherwise both operands
are stringified and compared as JS strings. -/
def evaluateRule (recordValue : JSVal) (operator : String) (ruleValue : JSVal)
    (dataType : String) : Bool :=
  if dataType = "Number" then
    match toDec? recordValue, toDec? ruleValue with
    | some rv, some v =>
      if operator = "=" then rv = v
      else if operator = ">=" then qleB v rv
      else if operator = "<=" then qleB rv v
      else if operator = ">" then qltB v rv
      else if operator = "<" then qltB rv v
      else if operator = "CONTAINS" then strIncludes (jsNumToString rv) (jsNumToString v)
      else if operator = "!=" then rv ≠ v
      else false
    | _, _ => false
  else if dataType = "Date" then false
  else
    let rv := jsToString recordValue
    let v := jsToString ruleValue
    if operator = "=" then rv = v
    else if operator = ">=" then ! jsStrLtB rv v
    else if operator = "<=" then ! jsStrLtB v rv
    else if operator = ">" then jsStrLtB v rv
    else if operator = "<" then jsStrLtB rv v
    else if operator = "CONTAINS" then strIncludes rv v
    else if operator = "!=" then rv ≠ v
    else false

/-! ### Rows -/

/-- A parsed CSV row: field-keyed string cells plus the engine's internal
record identifier (`recordInternalId`, random in JS, taken as given here). -/
structure Row where
  rid : String
  fields : List (String × String)
deriving Repr, DecidableEq

/-- `record[f]`: `none` models JS `undefined`. -/
def getField (r : Row) (f : String) : Option String :=
  (r.fields.find? (fun p => p.1 = f)).map (fun p => p.2)

/-- A record cell as handed to `evaluateRule`; a missing field is `undefined`,
which stringifies to `"undefined"` and fails `Decimal` conversion, exactly as
`JSVal.vstr "undefined"` does. -/
def fieldVal (r : Row) (f : String) : JSVal :=
  match getField r f with
  | some s => .vstr s
  | none => .vstr "undefined"

/-! ### Scheme configuration -/

/-- One entry of a `kpiConfig` field list: logical field name, physical source
column, data type, evaluation level and aggregation mode. -/
structure FieldDef where
  name : String
  sourceField : String
  dataType : String
  evaluationLevel : String
  aggregation : String
deriving Repr, DecidableEq

/-- A qualification or exclusion rule. -/
structure Rule where
  id : String
  field : String
  operator : String
  value : JSVal
deriving Repr, DecidableEq

/-- An adjustment rule: a condition over a mapped field plus an adjustment with
target (`"Amount"`/`"Rate"`), type (`"percentage"`/`"fixed"`) and numeric value
(`new Decimal(adj.value)`; a non-numeric value would abort the whole JS run and
is not modelled). -/
structure AdjRule where
  id : String
  condField : String
  condOperator : String
  condValue : JSVal
  target : String
  adjType : String
  value : ℚ
deriving Repr, DecidableEq

/-- A payout tier (`from`, nullable `to`, `rate`, `isPercentage`).  The source
field name `from` is a Lean keyword, hence `tfrom`/`tto`. -/
structure Tier where
  id : String
  tfrom : ℚ
  tto : Option ℚ
  rate : ℚ
  isPercentage : Bool
deriving Repr, DecidableEq

/-- A credit split: role label (`"L1"`, `"L2"`, ...) and percentage. -/
structure CreditSplit where
  role : String
  percentage : ℚ
deriving Repr, DecidableEq

structure BaseMapping where
  sourceFile : String
  agentField : String
  amountField : String
  transactionDateField : String
deriving Repr, DecidableEq

structure KpiConfig where
  qualificationFields : List FieldDef
  adjustmentFields : List FieldDef
  exclusionFields : List FieldDef
deriving Repr, DecidableEq

/-- The scheme configuration consumed by `runScheme`.  `quotaAmount` models
`scheme.quotaAmount ? new Decimal(scheme.quotaAmount) : new Decimal(0)`: an
absent quota behaves exactly like `0`, so a plain `ℚ` suffices.
`creditHierarchyFile` is `none` when the scheme declares no hierarchy file.
`customRules` only influences a per-record log entry; the hook itself is a
no-op, so only the rule ids are kept. -/
structure Scheme where
  effectiveFrom : String
  quotaAmount : ℚ
  baseMapping : BaseMapping
  kpiConfig : KpiConfig
  qualificationRules : List Rule
  exclusionRules : List Rule
  adjustmentRules : List AdjRule
  customRules : List String
  payoutTiers : List Tier
  creditSplits : List CreditSplit
  creditHierarchyFile : Option String
deriving Repr, DecidableEq

/-! ### `findManager` -/

/-- The record returned by a successful `findManager` lookup.  `managerId` is
`record['Reports To Person']`, which may be absent (`undefined`). -/
structure ManagerDetails where
  managerId : Option String
  validFrom : String
  validTo : String
deriving Repr, DecidableEq

/-- The loop body of `findManager`: first hierarchy row whose
`'Sales Employee'` equals the agent id (JS `===`, exact and case-sensitive) and
whose `[Reports From, Reports To]` window contains the transaction date; a
missing/unparseable `Reports From` never matches, a missing/unparseable
`Reports To` means valid indefinitely. -/
def findManagerLoop (aid : String) (target : ℕ) : List Row → Option ManagerDetails
  | [] => none
  | r :: rest =>
    if getField r "Sales Employee" = some aid then
      let fromD := (getField r "Reports From").bind parseDate
      let toD := (getField r "Reports To").bind parseDate
      let isAfterFrom := match fromD with
        | some f => decide (f ≤ target)
        | none => false
      let isBeforeTo := match toD with
        | some t => decide (target ≤ t)
        | none => true
      if isAfterFrom && isBeforeTo then
        some { managerId := getField r "Reports To Person"
               validFrom := (getField r "Reports From").getD "undefined"
               validTo :=
                 match getField r "Reports To" with
                 | some s => if s = "" then "Indefinite" else s
                 | none => "Indefinite" }
      else findManagerLoop aid target rest
    else findManagerLoop aid target rest

/-- `findManager(hierarchyData, agentId, transactionDate)`.  A falsy agent id
(`null`/`undefined`/`""`) or a non-`Date` transaction date yields `null`. -/
def findManager (hierarchyData : List Row) (agentId : Option String)
    (transactionDate : Option ℕ) : Option ManagerDetails :=
  match agentId, transactionDate with
  | some aid, some target =>
    if aid = "" then none else findManagerLoop aid target hierarchyData
  | _, _ => none

/-! ### `calculateTieredPayout` -/

/-- Stable ascending insertion by `from`; extensionally equal to the stable
`[...tiers].sort((a, b) => a.from - b.from)` of the source. -/
def insertTier (t : Tier) : List Tier → List Tier
  | [] => [t]
  | u :: rest => if qltB u.tfrom t.tfrom then u :: insertTier t rest else t :: u :: rest

def sortTiers : List Tier → List Tier
  | [] => []
  | t :: rest => insertTier t (sortTiers rest)

/-- `amountInTier = Decimal.max(0, Decimal.min(amount, to).minus(from))`;
a null `to` is `Decimal.Infinity`, so `min(amount, Infinity) = amount`. -/
def loopSlice (amount : ℚ) (t : Tier) : ℚ :=
  match t.tto with
  | some v => qmax 0 (qsub (qmin amount v) t.tfrom)
  | none => qmax 0 (qsub amount t.tfrom)

/-- `amount.gt(tierRangeEnd)` (false against `Infinity`). -/
def loopGtEnd (amount : ℚ) (t : Tier) : Bool :=
  match t.tto with
  | some v => qltB v amount
  | none => false

/-- `amount.lte(tierRangeEnd)` (true against `Infinity`). -/
def loopLeEnd (amount : ℚ) (t : Tier) : Bool :=
  match t.tto with
  | some v => qleB amount v
  | none => true

/-- `payoutForTier`: `amountInTier * rate / 100` for a percentage tier, else
`amountInTier * rate` (the code's fallback for fixed-rate marginal tiers). -/
def loopContribution (amount : ℚ) (t : Tier) : ℚ :=
  if t.isPercentage then div100 (qmul (loopSlice amount t) t.rate)
  else qmul (loopSlice amount t) t.rate

/-- The loop of `calculateTieredPayout` over the sorted tier list:
`continue` on a zero slice with `amount > to`, `break` (returning the
accumulated total) on a zero slice with `amount ≤ from`, otherwise add the
tier contribution and `break` once `amount ≤ to`. -/
def tieredLoop (amount : ℚ) : List Tier → ℚ
  | [] => 0
  | tier :: rest =>
    if loopSlice amount tier = 0 ∧ loopGtEnd amount tier = true then tieredLoop amount rest
    else if loopSlice amount tier = 0 ∧ qleB amount tier.tfrom = true then 0
    else if loopLeEnd amount tier then loopContribution amount tier
    else qadd (loopContribution amount tier) (tieredLoop amount rest)

/-- `calculateTieredPayout(amount, tiers)` from `runScheme.js`. -/
def calculateTieredPayout (amount : ℚ) (tiers : List Tier) : ℚ :=
  tieredLoop amount (sortTiers tiers)

/-! ### Logs -/

/-- A record-level log entry (`rawRecordLevelData`): structured fields only
(timestamps and message text are presentational and not modelled). -/
structure RawLog where
  ruleType : String
  ruleId : String
  recordId : String
  agentId : String
deriving Repr, DecidableEq

/-- An agent-level log entry (`ruleHitLogs[agentId]`). -/
structure AgentLog where
  ruleType : String
  ruleId : String
  agentId : String
  matched : Bool
deriving Repr, DecidableEq

/-! ### Record-level rule application (step 3 of `runScheme`) -/

/-- `fields.find(f => f.name === rule.field)`. -/
def findFieldDef (fields : List FieldDef) (name : String) : Option FieldDef :=
  fields.find? (fun f => f.name = name)

/-- Whether an exclusion rule matches a record.  A rule whose field does not
resolve in `kpiConfig.exclusionFields` is skipped (`continue`), which for the
exclusion outcome is the same as not matching; it produces only a console
warning, not a result log entry. -/
def exclusionMatches (fields : List FieldDef) (r : Row) (rule : Rule) : Bool :=
  match findFieldDef fields rule.field with
  | none => false
  | some fd => evaluateRule (fieldVal r fd.sourceField) rule.operator rule.value fd.dataType

/-- The exclusion loop: the first matching rule wins (`break`). -/
def firstExclusion (rules : List Rule) (fields : List FieldDef) (r : Row) : Option Rule :=
  rules.find? (exclusionMatches fields r)

/-- Whether an adjustment rule's condition matches a record (unresolvable
condition fields are skipped, hence never match). -/
def adjMatches (fields : List FieldDef) (r : Row) (rule : AdjRule) : Bool :=
  match findFieldDef fields rule.condField with
  | none => false
  | some fd =>
    evaluateRule (fieldVal r fd.sourceField) rule.condOperator rule.condValue fd.dataType

/-- The numeric effect of a matched adjustment rule on the running
`(currentAmount, rateMultiplier)` state; unknown target/type combinations have
no numeric effect. -/
def adjApply (rule : AdjRule) (st : ℚ × ℚ) : ℚ × ℚ :=
  if rule.target = "Amount" then
    if rule.adjType = "percentage" then (qadd st.1 (div100 (qmul st.1 rule.value)), st.2)
    else if rule.adjType = "fixed" then (qadd st.1 rule.value, st.2)
    else st
  else if rule.target = "Rate" then
    if rule.adjType = "percentage" then (st.1, qmul st.2 (div100 rule.value))
    else if rule.adjType = "fixed" then (st.1, qmul st.2 rule.value)
    else st
  else st

/-- The adjustment loop: each matched rule updates the running state
left-to-right and logs an `Adjustment` entry (it logs even when the
target/type is unknown). -/
def applyAdjustments (fields : List FieldDef) (r : Row) (agentId : String) :
    List AdjRule → (ℚ × ℚ) → (ℚ × ℚ) × List RawLog
  | [], st => (st, [])
  | rule :: rest, st =>
    if adjMatches fields r rule then
      let res := applyAdjustments fields r agentId rest (adjApply rule st)
      (res.1, ⟨"Adjustment", rule.id, r.rid, agentId⟩ :: res.2)
    else applyAdjustments fields r agentId rest st

/-- `new Decimal(record[amountField] || 0)`: a missing or empty cell counts as
`0`; an unparseable cell throws (→ `none`, a `DataError` exclusion). -/
def parseAmount (r : Row) (amountField : String) : Option ℚ :=
  match getField r amountField with
  | none => some 0
  | some s => if s = "" then some 0 else parseDecimal s

/-- A record that survived exclusion, carrying its computed
`record.adjustedAmount`. -/
structure PRow where
  row : Row
  adjustedAmount : ℚ
deriving Repr, DecidableEq

/-- Outcome of processing a single record (step 3.A–3.C): the processed record
if it was not excluded, its contribution to `totalBaseAmount`, and its
record-level log entries. -/
structure RecordOutcome where
  processed : Option PRow
  baseAmount : ℚ
  logs : List RawLog
deriving Repr, DecidableEq

/-- Per-record processing: amount validation (a `DataError` excludes the record
and keeps it out of `totalBaseAmount`), then exclusion rules (first match wins,
one `Exclusion` log entry, no adjustments), then adjustment rules and the
no-op custom-rule hook (one `Custom` log entry per record when custom rules are
declared); the final adjusted amount is `currentAmount * rateMultiplier`. -/
def processRecord (scheme : Scheme) (agentId : String) (r : Row) : RecordOutcome :=
  match parseAmount r scheme.baseMapping.amountField with
  | none => ⟨none, 0, [⟨"DataError", "", r.rid, agentId⟩]⟩
  | some amt0 =>
    match firstExclusion scheme.exclusionRules scheme.kpiConfig.exclusionFields r with
    | some rule => ⟨none, amt0, [⟨"Exclusion", rule.id, r.rid, agentId⟩]⟩
    | none =>
      let adjRes := applyAdjustments scheme.kpiConfig.adjustmentFields r agentId
        scheme.adjustmentRules (amt0, 1)
      let customLogs : List RawLog :=
        if scheme.customRules = [] then [] else [⟨"Custom", "", r.rid, agentId⟩]
      ⟨some ⟨r, qmul adjRes.1.1 adjRes.1.2⟩, amt0, adjRes.2 ++ customLogs⟩

/-- Aggregate outcome of the record loop for one agent. -/
structure RecordsOutcome where
  processed : List PRow
  totalBase : ℚ
  totalAdjusted : ℚ
  logs : List RawLog
deriving Repr, DecidableEq

/-- The record loop for one agent.  The JS loop accumulates the two totals
left-to-right; by associativity and commutativity of exact rational addition
the right-nested accumulation below computes the same values. -/
def processRecords (scheme : Scheme) (agentId : String) : List Row → RecordsOutcome
  | [] => ⟨[], 0, 0, []⟩
  | r :: rest =>
    let ro := processRecord scheme agentId r
    let res := processRecords scheme agentId rest
    ⟨ro.processed.toList ++ res.processed,
      qadd ro.baseAmount res.totalBase,
      qadd (match ro.processed with | some p => p.adjustedAmount | none => 0) res.totalAdjusted,
      ro.logs ++ res.logs⟩

/-! ### Agent-level qualification (step 4 of `runScheme`)

The JS loop mutates shared scheme objects in place when it meets a rule whose
resolved field is not agent-level: it overwrites `rule.value = true`,
`rule.operator = '='` and `fieldDef.dataType = 'Boolean'` on the objects stored
in `scheme.qualificationRules` / `scheme.kpiConfig.qualificationFields`.  Those
objects are shared by every agent of the run, so the mutation is threaded here
as an explicit `(rules, fields)` state returned by the qualification step. -/

/-- Replace the first field definition with the given logical name (the object
that `fields.find` returned and the JS code mutated in place). -/
def updateFirstField (name : String) (fd' : FieldDef) : List FieldDef → List FieldDef
  | [] => []
  | f :: rest => if f.name = name then fd' :: rest else f :: updateFirstField name fd' rest

/-- The agent-level aggregation of a qualification field over the agent's
processed records: `Sum` uses `record.adjustedAmount` when the source field is
the configured amount field and `new Decimal(rec[f] || 0)` otherwise (an
unparseable cell is skipped); `Count` is the record count; other aggregation
modes are unsupported (`none`).  The console-style warning entries for
unsummable cells are presentational and not modelled. -/
def qualAggValue (fd : FieldDef) (recs : List PRow) (amountField : String) : Option ℚ :=
  if fd.aggregation = "Sum" then
    some (recs.foldl
      (fun s p =>
        if fd.sourceField = amountField then qadd s p.adjustedAmount
        else
          match parseAmount p.row fd.sourceField with
          | some v => qadd s v
          | none => s)
      0)
  else if fd.aggregation = "Count" then some (mkRat recs.length 1)
  else none

/-- Outcome of the qualification loop, including the possibly-mutated rule and
field lists that the next agent of the run will observe. -/
structure QualOutcome where
  qualified : Bool
  rules : List Rule
  fields : List FieldDef
  logs : List AgentLog
deriving Repr, DecidableEq

/-- The qualification loop.  A rule with an unresolvable field or an
unsupported aggregation is skipped (`continue`, with an `Error` log entry in
the unsupported-aggregation case).  An agent-level rule compares the aggregate
against the rule literal.  A non-agent-level rule is an existence check over
the agent's processed records, after which the loop mutates the rule to
`(operator '=', value true)` and the field definition to dataType `'Boolean'`;
the final comparison already uses the mutated values.  The first failed rule
disqualifies the agent and breaks out of the loop (rules after it stay
untouched), adding a second `Qualification` log entry. -/
def runQualRules (recs : List PRow) (amountField agentId : String) :
    List Rule → List FieldDef → QualOutcome
  | [], fields => ⟨true, [], fields, []⟩
  | rule :: rest, fields =>
    match findFieldDef fields rule.field with
    | none =>
      let res := runQualRules recs amountField agentId rest fields
      ⟨res.qualified, rule :: res.rules, res.fields, res.logs⟩
    | some fd =>
      if fd.evaluationLevel = "Agent" then
        match qualAggValue fd recs amountField with
        | none =>
          let res := runQualRules recs amountField agentId rest fields
          ⟨res.qualified, rule :: res.rules, res.fields,
            ⟨"Error", rule.id, agentId, false⟩ :: res.logs⟩
        | some v =>
          let ruleMet := evaluateRule (.vnum v) rule.operator rule.value fd.dataType
          let log1 : AgentLog := ⟨"Qualification", rule.id, agentId, ruleMet⟩
          if ruleMet then
            let res := runQualRules recs amountField agentId rest fields
            ⟨res.qualified, rule :: res.rules, res.fields, log1 :: res.logs⟩
          else
            ⟨false, rule :: rest, fields, [log1, ⟨"Qualification", "", agentId, false⟩]⟩
      else
        let foundMatch := recs.any fun p =>
          evaluateRule (fieldVal p.row fd.sourceField) rule.operator rule.value fd.dataType
        let rule' : Rule := { rule with operator := "=", value := .vbool true }
        let fd' : FieldDef := { fd with dataType := "Boolean" }
        let fields' := updateFirstField rule.field fd' fields
        let ruleMet := evaluateRule (.vbool foundMatch) rule'.operator rule'.value fd'.dataType
        let log1 : AgentLog := ⟨"Qualification", rule.id, agentId, ruleMet⟩
        if ruleMet then
          let res := runQualRules recs amountField agentId rest fields'
          ⟨res.qualified, rule' :: res.rules, res.fields, log1 :: res.logs⟩
        else
          ⟨false, rule' :: rest, fields', [log1, ⟨"Qualification", "", agentId, false⟩]⟩

/-! ### Payout (step 5 of `runScheme`) -/

/-- `Decimal.toFixed(2)` with the default `ROUND_HALF_UP` (half away from
zero); a negative value keeps its sign even when rounding to `-0.00`. -/
def ratToFixed2 (q : ℚ) : String :=
  let neg := qltB q 0
  let n := q.num.natAbs
  let cents : ℕ := (200 * n + q.den) / (2 * q.den)
  let ip := cents / 100
  let fr := cents % 100
  let frs := if fr < 10 then "0" ++ toString fr else toString fr
  (if neg then "-" else "") ++ toString ip ++ "." ++ frs

structure PayoutOutcome where
  payout : ℚ
  logs : List AgentLog
deriving Repr, DecidableEq

/-- Step 5: a disqualified agent gets payout `0` and no payout log; with a
positive quota, a qualified agent below quota gets payout `0` and a failed
`Quota` log entry (no tier calculation), otherwise the tiers are applied to the
full total adjusted amount (a `Quota` success entry is logged when a positive
quota was met). -/
def payoutStage (scheme : Scheme) (agentId : String) (qualified : Bool) (total : ℚ) :
    PayoutOutcome :=
  if qualified then
    if qltB 0 scheme.quotaAmount then
      if qltB total scheme.quotaAmount then
        ⟨0, [⟨"Quota", "", agentId, false⟩]⟩
      else
        ⟨calculateTieredPayout total scheme.payoutTiers,
          [⟨"Quota", "", agentId, true⟩, ⟨"PayoutCalculation", "", agentId, true⟩]⟩
    else
      ⟨calculateTieredPayout total scheme.payoutTiers,
        [⟨"PayoutCalculation", "", agentId, true⟩]⟩
  else ⟨0, []⟩

/-! ### Credit split (step 6 of `runScheme`)

`creditDistributions[agentId]` receives heterogeneous entries: distribution
records, hierarchy-lookup warnings, and skip notices.  The JS lookup cursor
(`currentAgentForLookup`, `level`) is declared outside the split loop and is
*not* reset between split rules.  A falsy cursor value (`null`, `undefined`,
`''`) behaves identically in every use (the `findManager` guard and the
truthiness test before emitting), so all falsy values are normalised to
`none`. -/

inductive CreditEntry where
  | dist (fromAgent toAgent role : String) (percentage : ℚ)
      (amount resolvedUsing validDuring : String)
  | warn (fromAgent targetRole lookupAgent : String)
  | info (fromAgent targetRole : String)
deriving Repr, DecidableEq

/-- `parseInt(role.substring(1))`: leading digits of the role label's tail
(`"L2" ↦ 2`); no digits means `NaN` (`none`). -/
def parseLevelNum (role : String) : Option ℕ :=
  natOfDigits? ((role.toList.drop 1).takeWhile Char.isDigit)

/-- Result of the inner hierarchy-climbing loop
(`for (let i = level; i < targetLevel; i++)`). -/
structure ClimbResult where
  cur : Option String
  level : ℕ
  details : Option ManagerDetails
  failed : Bool
  failLookup : String
deriving Repr, DecidableEq

/-- Climb `steps` hierarchy levels starting from `cur`.  Each successful
lookup moves the cursor to the found manager id (falsy ids normalise to
`none`) and increments `level`; a failed lookup clears the cursor, records the
lookup agent for the warning entry, and breaks without touching `level`. -/
def climb (h : List Row) (runDate : ℕ) : ℕ → Option String → ℕ → ClimbResult
  | 0, cur, lvl => ⟨cur, lvl, none, false, ""⟩
  | steps + 1, cur, lvl =>
    match findManager h cur (some runDate) with
    | some d =>
      let cur' : Option String :=
        match d.managerId with
        | some s => if s = "" then none else some s
        | none => none
      if steps = 0 then ⟨cur', lvl + 1, some d, false, ""⟩
      else climb h runDate steps cur' (lvl + 1)
    | none => ⟨none, lvl, none, true, cur.getD "undefined"⟩

/-- Append a distribution record for a resolved target, unless the credit
amount (`basePayout * percentage / 100`) is not positive, in which case nothing
is logged. -/
def emitSplit (agentId role : String) (percentage basePayout : ℚ) (toAgent : String)
    (resolvedUsing : String) (details : Option ManagerDetails)
    (entries : List CreditEntry) : List CreditEntry :=
  let creditAmount := div100 (qmul basePayout percentage)
  if qltB 0 creditAmount then
    entries ++ [.dist agentId toAgent role percentage (ratToFixed2 creditAmount) resolvedUsing
      (match details with
       | some d => d.validFrom ++ " to " ++ d.validTo
       | none => "N/A")]
  else entries

/-- The cursor state threaded through the split loop. -/
structure SplitState where
  currentAgent : Option String
  level : ℕ
  entries : List CreditEntry
deriving Repr, DecidableEq

/-- One iteration of the credit-split loop.  `L1` resolves to the originating
agent directly; any other role parses its numeric level and climbs the
hierarchy from the *current* cursor when the target level is above the current
one (a failed climb logs a warning and, because the target stays unresolved, a
skip notice as well); a role at exactly the current level reuses the cursor; an
unparsable or lower level resolves nothing.  Unresolved non-`L1` roles log a
skip notice. -/
def creditSplitStep (hierName : String) (h : List Row) (runDate : ℕ) (agentId : String)
    (basePayout : ℚ) (st : SplitState) (splitRule : CreditSplit) : SplitState :=
  let role := splitRule.role
  if role = "L1" then
    { st with entries := (emitSplit agentId role splitRule.percentage basePayout agentId
        "Direct Assignment" none st.entries) }
  else
    match parseLevelNum role with
    | none => { st with entries := st.entries ++ [.info agentId role] }
    | some targetLevel =>
      if st.level < targetLevel then
        let c := climb h runDate (targetLevel - st.level) st.currentAgent st.level
        if c.failed then
          ⟨none, c.level,
            st.entries ++ [.warn agentId role c.failLookup, .info agentId role]⟩
        else
          match c.cur with
          | some t =>
            if c.level = targetLevel then
              ⟨c.cur, c.level,
                emitSplit agentId role splitRule.percentage basePayout t hierName
                  c.details st.entries⟩
            else ⟨c.cur, c.level, st.entries ++ [.info agentId role]⟩
          | none => ⟨c.cur, c.level, st.entries ++ [.info agentId role]⟩
      else if targetLevel = st.level then
        match st.currentAgent with
        | some t =>
          { st with entries := (emitSplit agentId role splitRule.percentage basePayout t
              "Direct Assignment" none st.entries) }
        | none => { st with entries := st.entries ++ [.info agentId role] }
      else { st with entries := st.entries ++ [.info agentId role] }

/-- Step 6 guard and loop: splits run only for a qualified agent with positive
payout, non-empty hierarchy data and declared splits; `none` models the absent
`creditDistributions[agentId]` key. -/
def creditStage (scheme : Scheme) (h : List Row) (runDate : ℕ) (agentId : String)
    (qualified : Bool) (payout : ℚ) : Option (List CreditEntry) :=
  if qualified = true ∧ qltB 0 payout = true ∧ h ≠ [] ∧ scheme.creditSplits ≠ [] then
    some ((scheme.creditSplits.foldl
      (creditSplitStep ((scheme.creditHierarchyFile).getD "undefined") h runDate agentId payout)
      ⟨some agentId, 1, []⟩).entries)
  else none

/-! ### The per-agent pipeline and the whole run -/

/-- Everything `runScheme` computes for one agent (the `agentInfo` object),
plus the derived payout string stored into `agentPayouts`. -/
structure AgentOutcome where
  totalBase : ℚ
  totalAdjusted : ℚ
  qualified : Bool
  payout : ℚ
  payoutStr : String
  agentLogs : List AgentLog
  recordLogs : List RawLog
  creditEntries : Option (List CreditEntry)
deriving Repr, DecidableEq

/-- Steps 3–6 for one agent.  Returns the agent outcome together with the
qualification rule/field lists as left behind for the next agent (the in-place
mutation described at `runQualRules`). -/
def processAgent (scheme : Scheme) (h : List Row) (runDate : ℕ)
    (qualRules : List Rule) (qualFields : List FieldDef)
    (agentId : String) (rows : List Row) :
    AgentOutcome × List Rule × List FieldDef :=
  let recs := processRecords scheme agentId rows
  let qual := runQualRules recs.processed scheme.baseMapping.amountField agentId
    qualRules qualFields
  let pay := payoutStage scheme agentId qual.qualified recs.totalAdjusted
  let credit := creditStage scheme h runDate agentId qual.qualified pay.payout
  (⟨recs.totalBase, recs.totalAdjusted, qual.qualified, pay.payout, ratToFixed2 pay.payout,
    qual.logs ++ pay.logs, recs.logs, credit⟩, qual.rules, qual.fields)

/-- The result object of `runScheme`; the JS plain-object maps keyed by agent
id are association lists in first-appearance order (JS `for...in` uses
insertion order for the non integer-like keys used below). -/
structure RunResult where
  agentPayouts : List (String × String)
  ruleHitLogs : List (String × List AgentLog)
  creditDistributions : List (String × List CreditEntry)
  rawRecordLevelData : List RawLog
deriving Repr, DecidableEq

instance {ε α : Type} [DecidableEq ε] [DecidableEq α] : DecidableEq (Except ε α) := fun a b =>
  match a, b with
  | .error e, .error f =>
    if h : e = f then isTrue (by rw [h]) else isFalse (by intro hh; cases hh; exact h rfl)
  | .ok x, .ok y =>
    if h : x = y then isTrue (by rw [h]) else isFalse (by intro hh; cases hh; exact h rfl)
  | .error _, .ok _ => isFalse (by intro hh; cases hh)
  | .ok _, .error _ => isFalse (by intro hh; cases hh)

/-- The agent loop, threading the mutable qualification rule/field lists. -/
def processAgents (scheme : Scheme) (h : List Row) (runDate : ℕ) :
    List Rule → List FieldDef → List (String × List Row) → RunResult
  | _, _, [] => ⟨[], [], [], []⟩
  | qr, qf, (aid, rows) :: rest =>
    let pa := processAgent scheme h runDate qr qf aid rows
    let res := processAgents scheme h runDate pa.2.1 pa.2.2 rest
    ⟨(aid, pa.1.payoutStr) :: res.agentPayouts,
      (if pa.1.agentLogs = [] then res.ruleHitLogs else (aid, pa.1.agentLogs) :: res.ruleHitLogs),
      (match pa.1.creditEntries with
       | some es => (aid, es) :: res.creditDistributions
       | none => res.creditDistributions),
      pa.1.recordLogs ++ res.rawRecordLevelData⟩

/-- `uploadedFiles[name]` over the model's association-list file table. -/
def lookupFile (files : List (String × List Row)) (name : String) : Option (List Row) :=
  (files.find? (fun p => p.1 = name)).map (fun p => p.2)

/-- Step 1, base data selection: keep rows whose transaction date parses and
lies in `[effectiveFrom, runAsOfDate]` (no lower bound when `effectiveFrom`
did not parse); unparseable dates produce a `Warning` log entry. -/
def filterRecords (scheme : Scheme) (effFrom : Option ℕ) (runDate : ℕ) (rows : List Row) :
    List Row × List RawLog :=
  rows.foldl
    (fun acc r =>
      match (getField r scheme.baseMapping.transactionDateField).bind parseDate with
      | none =>
        (acc.1, acc.2 ++ [⟨"Warning", "", r.rid,
          (match getField r scheme.baseMapping.agentField with
           | some s => if s = "" then "Unknown" else s
           | none => "Unknown")⟩])
      | some d =>
        let pass := (match effFrom with
          | some e => decide (e ≤ d)
          | none => true) && decide (d ≤ runDate)
        if pass then (acc.1 ++ [r], acc.2) else acc)
    ([], [])

def addToGroup (aid : String) (r : Row) : List (String × List Row) → List (String × List Row)
  | [] => [(aid, [r])]
  | (k, rs) :: rest =>
    if k = aid then (k, rs ++ [r]) :: rest else (k, rs) :: addToGroup aid r rest

/-- Step 2, grouping by agent id in first-appearance order; rows with a falsy
agent id are dropped with a `Warning` log entry (that JS entry carries no agent
id, modelled as `""`). -/
def groupRecords (agentField : String) (rows : List Row) :
    List (String × List Row) × List RawLog :=
  rows.foldl
    (fun acc r =>
      match getField r agentField with
      | some aid =>
        if aid = "" then (acc.1, acc.2 ++ [⟨"Warning", "", r.rid, ""⟩])
        else (addToGroup aid r acc.1, acc.2)
      | none => (acc.1, acc.2 ++ [⟨"Warning", "", r.rid, ""⟩]))
    ([], [])

/-- `runScheme(scheme, uploadedFiles, runAsOfDateString)`.  Throws
(`Except.error`) on an unparseable run-as-of date and on a falsy or missing
base data file; an unparseable `scheme.effectiveFrom` is *not* an error (the
date filter simply loses its lower bound).  A declared but missing or falsy
hierarchy file downgrades to empty hierarchy data with a console warning. -/
def runScheme (scheme : Scheme) (uploadedFiles : List (String × List Row))
    (runAsOfDateString : String) : Except String RunResult :=
  match parseDate runAsOfDateString with
  | none => .error ("Invalid runAsOfDate: " ++ runAsOfDateString)
  | some runDate =>
    let effFrom := parseDate scheme.effectiveFrom
    let baseFile := scheme.baseMapping.sourceFile
    match (if baseFile = "" then none else lookupFile uploadedFiles baseFile) with
    | none => .error ("Base data file \"" ++ baseFile ++ "\" not found in uploadedFiles.")
    | some baseData =>
      let hierarchyData :=
        match scheme.creditHierarchyFile with
        | some hf => if hf = "" then [] else (lookupFile uploadedFiles hf).getD []
        | none => []
      let fr := filterRecords scheme effFrom runDate baseData
      let gr := groupRecords scheme.baseMapping.agentField fr.1
      let res := processAgents scheme hierarchyData runDate scheme.qualificationRules
        scheme.kpiConfig.qualificationFields gr.1
      .ok { res with rawRecordLevelData := fr.2 ++ gr.2 ++ res.rawRecordLevelData }


/-! ### Tier theory

`tierSlice`/`tierContribution` are the per-tier quantities named by the
specification ("the slice of `amount` inside `[tier.from, tier.to]`");
`tiersOrderedB` is the well-formedness it assumes: tiers sorted ascending by
`from` and non-overlapping (every earlier tier's `to` is defined and at most
every later tier's `from`). -/

/-- Claim-side slice of `amount` inside `[t.from, t.to]`:
`max(0, min(amount, to) - from)`, a missing `to` being `+∞`. -/
def tierSlice (amount : ℚ) (t : Tier) : ℚ :=
  match t.tto with
  | some v => max 0 (min amount v - t.tfrom)
  | none => max 0 (amount - t.tfrom)

/-- Claim-side tier contribution: `slice * rate / 100` for a percentage tier,
`slice * rate` otherwise. -/
def tierContribution (amount : ℚ) (t : Tier) : ℚ :=
  if t.isPercentage then tierSlice amount t * t.rate / 100
  else tierSlice amount t * t.rate

/-- Tier `a` precedes tier `b` properly: `a.from ≤ b.from` and `a`'s upper
bound exists and is at most `b.from`. -/
def tierSepB (a b : Tier) : Bool :=
  qleB a.tfrom b.tfrom && (match a.tto with | some v => qleB v b.tfrom | none => false)

/-- Sorted-ascending-and-non-overlapping for a whole tier list. -/
def tiersOrderedB : List Tier → Bool
  | [] => true
  | t :: rest => rest.all (tierSepB t) && tiersOrderedB rest

lemma loopSlice_eq (amount : ℚ) (t : Tier) : loopSlice amount t = tierSlice amount t := by
  unfold loopSlice tierSlice
  cases t.tto <;> simp [qmax_eq, qmin_eq, qsub_eq]

lemma loopContribution_eq (amount : ℚ) (t : Tier) :
    loopContribution amount t = tierContribution amount t := by
  unfold loopContribution tierContribution
  cases t.isPercentage <;> simp [div100_eq, qmul_eq, loopSlice_eq]

lemma tierContribution_of_slice_zero {amount : ℚ} {t : Tier}
    (h : tierSlice amount t = 0) : tierContribution amount t = 0 := by
  simp [tierContribution, h]

lemma tierSlice_of_le_tfrom {amount : ℚ} {t : Tier} (h : amount ≤ t.tfrom) :
    tierSlice amount t = 0 := by
  unfold tierSlice
  cases t.tto with
  | none => exact max_eq_left (sub_nonpos.mpr h)
  | some v =>
    exact max_eq_left (sub_nonpos.mpr ((min_le_left amount v).trans h))

lemma tiersOrderedB_cons {t : Tier} {rest : List Tier}
    (h : tiersOrderedB (t :: rest) = true) :
    (∀ b ∈ rest, tierSepB t b = true) ∧ tiersOrderedB rest = true := by
  rw [tiersOrderedB, Bool.and_eq_true, List.all_eq_true] at h
  exact h

lemma tierSepB_dest {a b : Tier} (h : tierSepB a b = true) :
    a.tfrom ≤ b.tfrom ∧ ∃ v, a.tto = some v ∧ v ≤ b.tfrom := by
  rw [tierSepB, Bool.and_eq_true] at h
  obtain ⟨h1, h2⟩ := h
  refine ⟨(qleB_iff _ _).mp h1, ?_⟩
  cases htto : a.tto with
  | none => rw [htto] at h2; simp at h2
  | some v => rw [htto] at h2; exact ⟨v, rfl, (qleB_iff _ _).mp h2⟩

/-- On a sorted, non-overlapping tier list the loop of `calculateTieredPayout`
computes exactly the sum of the per-tier contributions. -/
lemma tieredLoop_eq_sum (amount : ℚ) (l : List Tier) (h : tiersOrderedB l = true) :
    tieredLoop amount l = (l.map (tierContribution amount)).sum := by
  induction l with
  | nil => simp [tieredLoop]
  | cons t rest ih =>
    obtain ⟨hall, hrest⟩ := tiersOrderedB_cons h
    rw [tieredLoop]
    split_ifs with h1 h2 h3
    · -- zero slice, amount beyond the tier: skip, contribution is zero
      rw [ih hrest, List.map_cons, List.sum_cons,
        tierContribution_of_slice_zero (loopSlice_eq amount t ▸ h1.1), zero_add]
    · -- zero slice, amount at or below the tier start: stop, all later slices are zero
      have hle : amount ≤ t.tfrom := (qleB_iff _ _).mp h2.2
      symm
      apply List.sum_eq_zero
      intro x hx
      rw [List.mem_map] at hx
      obtain ⟨b, hb, rfl⟩ := hx
      rcases List.mem_cons.mp hb with rfl | hbr
      · exact tierContribution_of_slice_zero (loopSlice_eq amount b ▸ h2.1)
      · have hsep := (tierSepB_dest (hall b hbr)).1
        exact tierContribution_of_slice_zero (tierSlice_of_le_tfrom (hle.trans hsep))
    · -- contribution added, amount within the tier: stop, later slices are zero
      rw [List.map_cons, List.sum_cons, loopContribution_eq]
      have hzero : ∀ b ∈ rest, tierContribution amount b = 0 := by
        intro b hbr
        obtain ⟨v, hv, hvb⟩ := (tierSepB_dest (hall b hbr)).2
        have hav : amount ≤ v := by
          rw [loopLeEnd, hv] at h3
          exact (qleB_iff _ _).mp h3
        exact tierContribution_of_slice_zero (tierSlice_of_le_tfrom (hav.trans hvb))
      have : (rest.map (tierContribution amount)).sum = 0 := by
        apply List.sum_eq_zero
        intro x hx
        rw [List.mem_map] at hx
        obtain ⟨b, hb, rfl⟩ := hx
        exact hzero b hb
      rw [this, add_zero]
    · -- contribution added, amount beyond the tier: continue
      rw [qadd_eq, ih hrest, List.map_cons, List.sum_cons, loopContribution_eq]

lemma insertTier_of_le (t : Tier) (l : List Tier) (h : ∀ b ∈ l, t.tfrom ≤ b.tfrom) :
    insertTier t l = t :: l := by
  cases l with
  | nil => rfl
  | cons u rest =>
    have hcond : ¬ (qltB u.tfrom t.tfrom = true) := by
      rw [qltB_iff]
      exact not_lt.mpr (h u (List.mem_cons_self u rest))
    rw [insertTier, if_neg hcond]

/-- The defensive sort inside `calculateTieredPayout` is the identity on a
sorted, non-overlapping tier list. -/
lemma sortTiers_eq_self (l : List Tier) (h : tiersOrderedB l = true) : sortTiers l = l := by
  induction l with
  | nil => rfl
  | cons t rest ih =>
    obtain ⟨hall, hrest⟩ := tiersOrderedB_cons h
    rw [sortTiers, ih hrest, insertTier_of_le]
    intro b hb
    exact (tierSepB_dest (hall b hb)).1

lemma mem_insertTier {x t : Tier} {l : List Tier} :
    x ∈ insertTier t l ↔ x = t ∨ x ∈ l := by
  induction l with
  | nil => simp [insertTier]
  | cons u rest ih =>
    rw [insertTier]
    split_ifs with hc
    · simp [ih]
      tauto
    · simp

lemma mem_sortTiers {x : Tier} {l : List Tier} : x ∈ sortTiers l ↔ x ∈ l := by
  induction l with
  | nil => simp [sortTiers]
  | cons t rest ih =>
    rw [sortTiers, mem_insertTier, ih]
    simp

/-- A non-positive amount earns nothing from tiers that all start at `0` or
above, whatever their order. -/
lemma tieredLoop_of_nonpos {amount : ℚ} (ha : amount ≤ 0) (l : List Tier)
    (h : ∀ t ∈ l, 0 ≤ t.tfrom) : tieredLoop amount l = 0 := by
  induction l with
  | nil => rfl
  | cons t rest ih =>
    have hf : 0 ≤ t.tfrom := h t (List.mem_cons_self t rest)
    have hslice : loopSlice amount t = 0 := by
      rw [loopSlice_eq]
      exact tierSlice_of_le_tfrom (ha.trans hf)
    have hq : qleB amount t.tfrom = true := (qleB_iff _ _).mpr (ha.trans hf)
    rw [tieredLoop]
    split_ifs with h1 h2 h3
    · exact ih fun x hx => h x (List.mem_cons_of_mem t hx)
    · rfl
    · exact absurd ⟨hslice, hq⟩ h2
    · exact absurd ⟨hslice, hq⟩ h2

lemma calculateTieredPayout_of_nonpos {amount : ℚ} (ha : amount ≤ 0)
    (tiers : List Tier) (h : ∀ t ∈ tiers, 0 ≤ t.tfrom) :
    calculateTieredPayout amount tiers = 0 := by
  unfold calculateTieredPayout
  exact tieredLoop_of_nonpos ha _ fun t ht => h t (mem_sortTiers.mp ht)

lemma tierSlice_mono (t : Tier) {a b : ℚ} (hab : a ≤ b) :
    tierSlice a t ≤ tierSlice b t := by
  unfold tierSlice
  cases t.tto with
  | none => exact max_le_max le_rfl (sub_le_sub_right hab _)
  | some v => exact max_le_max le_rfl (sub_le_sub_right (min_le_min hab le_rfl) _)

lemma tierContribution_mono (t : Tier) (hr : 0 ≤ t.rate) {a b : ℚ} (hab : a ≤ b) :
    tierContribution a t ≤ tierContribution b t := by
  have hmul : tierSlice a t * t.rate ≤ tierSlice b t * t.rate :=
    mul_le_mul_of_nonneg_right (tierSlice_mono t hab) hr
  unfold tierContribution
  split_ifs with hp
  · exact div_le_div_of_nonneg_right hmul (by norm_num)
  · exact hmul


/-! ### Record-processing theory (exclusion short-circuit, adjustment folding) -/

/-- The adjustment update exactly as the specification words it: a matching
rule adds `currentAmount * value/100` (Amount/percentage) or `value`
(Amount/fixed) to the running amount, or multiplies the running rate
multiplier by `value/100` (Rate/percentage) or `value` (Rate/fixed); its
condition is evaluated against the original record fields. -/
def claimAdjustStep (fields : List FieldDef) (r : Row) (st : ℚ × ℚ) (rule : AdjRule) : ℚ × ℚ :=
  if adjMatches fields r rule then
    if rule.target = "Amount" ∧ rule.adjType = "percentage" then
      (st.1 + st.1 * rule.value / 100, st.2)
    else if rule.target = "Amount" ∧ rule.adjType = "fixed" then
      (st.1 + rule.value, st.2)
    else if rule.target = "Rate" ∧ rule.adjType = "percentage" then
      (st.1, st.2 * (rule.value / 100))
    else if rule.target = "Rate" ∧ rule.adjType = "fixed" then
      (st.1, st.2 * rule.value)
    else st
  else st

lemma adjApply_eq_claim (fields : List FieldDef) (r : Row) (st : ℚ × ℚ) (rule : AdjRule) :
    (if adjMatches fields r rule then adjApply rule st else st) =
      claimAdjustStep fields r st rule := by
  unfold claimAdjustStep adjApply
  split_ifs <;>
    simp_all [qadd_eq, qmul_eq, div100_eq, mul_comm, mul_assoc, mul_div_assoc]

lemma applyAdjustments_fst (fields : List FieldDef) (r : Row) (agentId : String) :
    ∀ (rules : List AdjRule) (st : ℚ × ℚ),
      (applyAdjustments fields r agentId rules st).1 =
        rules.foldl (claimAdjustStep fields r) st
  | [], st => rfl
  | rule :: rest, st => by
    rw [applyAdjustments, List.foldl_cons, ← adjApply_eq_claim fields r st rule]
    split_ifs with hm
    · exact applyAdjustments_fst fields r agentId rest (adjApply rule st)
    · exact applyAdjustments_fst fields r agentId rest st

/-- The contribution of one record to its agent's `totalAdjustedAmount`. -/
def recordContribution (scheme : Scheme) (agentId : String) (r : Row) : ℚ :=
  match (processRecord scheme agentId r).processed with
  | some p => p.adjustedAmount
  | none => 0

lemma processRecords_totalAdjusted_cons (scheme : Scheme) (agentId : String)
    (r : Row) (rest : List Row) :
    (processRecords scheme agentId (r :: rest)).totalAdjusted =
      recordContribution scheme agentId r +
        (processRecords scheme agentId rest).totalAdjusted := by
  rw [processRecords]
  simp only [recordContribution]
  rw [qadd_eq]

lemma processRecords_skip (scheme : Scheme) (agentId : String) (r : Row)
    (hr : recordContribution scheme agentId r = 0) :
    ∀ pre post : List Row,
      (processRecords scheme agentId (pre ++ r :: post)).totalAdjusted =
        (processRecords scheme agentId (pre ++ post)).totalAdjusted
  | [], post => by
    rw [List.nil_append, List.nil_append, processRecords_totalAdjusted_cons, hr, zero_add]
  | p :: pre, post => by
    rw [List.cons_append, List.cons_append, processRecords_totalAdjusted_cons,
      processRecords_totalAdjusted_cons, processRecords_skip scheme agentId r hr pre post]


/-! ### Qualification-state and run-structure lemmas -/

/-- When every qualification rule that resolves a field definition resolves an
agent-level one, the qualification loop leaves the shared rule and field lists
untouched. -/
lemma runQualRules_state_id (recs : List PRow) (amountField agentId : String) :
    ∀ (rules : List Rule) (fields : List FieldDef),
      (∀ rule ∈ rules, ∀ fd, findFieldDef fields rule.field = some fd →
          fd.evaluationLevel = "Agent") →
      (runQualRules recs amountField agentId rules fields).rules = rules ∧
        (runQualRules recs amountField agentId rules fields).fields = fields := by
  intro rules
  induction rules with
  | nil => exact fun fields h => ⟨rfl, rfl⟩
  | cons rule rest ih =>
    intro fields h
    have hrest : ∀ r ∈ rest, ∀ fd, findFieldDef fields r.field = some fd →
        fd.evaluationLevel = "Agent" :=
      fun r hr => h r (List.mem_cons_of_mem rule hr)
    rw [runQualRules]
    cases hfd : findFieldDef fields rule.field with
    | none =>
      obtain ⟨h1, h2⟩ := ih fields hrest
      simp [h1, h2]
    | some fd =>
      have hAgent : fd.evaluationLevel = "Agent" :=
        h rule (List.mem_cons_self rule rest) fd hfd
      cases hagg : qualAggValue fd recs amountField with
      | none =>
        obtain ⟨h1, h2⟩ := ih fields hrest
        simp [hAgent, hagg, h1, h2]
      | some v =>
        obtain ⟨h1, h2⟩ := ih fields hrest
        cases hmet : evaluateRule (.vnum v) rule.operator rule.value fd.dataType with
        | true => simp [hAgent, hagg, hmet, h1, h2]
        | false => simp [hAgent, hagg, hmet]

/-- Every log entry produced by the qualification loop is a `Qualification` or
`Error` entry (in particular, never a `PayoutCalculation` or `Quota` entry). -/
lemma runQualRules_log_types (recs : List PRow) (amountField agentId : String) :
    ∀ (rules : List Rule) (fields : List FieldDef),
      ∀ e ∈ (runQualRules recs amountField agentId rules fields).logs,
        e.ruleType = "Qualification" ∨ e.ruleType = "Error" := by
  intro rules
  induction rules with
  | nil => intro fields e he; simp [runQualRules] at he
  | cons rule rest ih =>
    intro fields e he
    rw [runQualRules] at he
    cases hfd : findFieldDef fields rule.field with
    | none =>
      simp only [hfd] at he
      exact ih fields e he
    | some fd =>
      by_cases hAgent : fd.evaluationLevel = "Agent"
      · cases hagg : qualAggValue fd recs amountField with
        | none =>
          simp [hfd, hAgent, hagg] at he
          rcases he with rfl | he
          · right; rfl
          · exact ih fields e he
        | some v =>
          cases hmet : evaluateRule (.vnum v) rule.operator rule.value fd.dataType with
          | true =>
            simp [hfd, hAgent, hagg, hmet] at he
            rcases he with rfl | he
            · left; rfl
            · exact ih fields e he
          | false =>
            simp [hfd, hAgent, hagg, hmet] at he
            rcases he with rfl | rfl
            · left; rfl
            · left; rfl
      · cases hmet : evaluateRule
            (.vbool (recs.any fun p =>
              evaluateRule (fieldVal p.row fd.sourceField) rule.operator rule.value fd.dataType))
            "=" (.vbool true) "Boolean" with
        | true =>
          simp [hfd, hAgent, hmet] at he
          rcases he with rfl | he
          · left; rfl
          · exact ih _ e he
        | false =>
          simp [hfd, hAgent, hmet] at he
          rcases he with rfl | rfl
          · left; rfl
          · left; rfl

/-- Association-list lookup keyed by the first occurrence (JS object lookup for
the maps built here, whose keys are inserted once). -/
def lookupStr {α : Type} (l : List (String × α)) (k : String) : Option α :=
  (l.find? (fun p => p.1 = k)).map (fun p => p.2)

/-- Any key carrying credit-distribution entries in the run result belongs to a
processed agent (distributions are ledgered under the originating agent's id). -/
lemma creditDistributions_key_mem (scheme : Scheme) (h : List Row) (runDate : ℕ) :
    ∀ (groups : List (String × List Row)) (qr : List Rule) (qf : List FieldDef)
      (k : String) (es : List CreditEntry),
      lookupStr (processAgents scheme h runDate qr qf groups).creditDistributions k =
        some es →
      k ∈ groups.map Prod.fst := by
  intro groups
  induction groups with
  | nil => intro qr qf k es hk; simp [processAgents, lookupStr] at hk
  | cons g rest ih =>
    intro qr qf k es hk
    obtain ⟨aid, rows⟩ := g
    by_cases hkaid : k = aid
    · simp [hkaid]
    · rw [processAgents] at hk
      have htail : lookupStr (processAgents scheme h runDate
          (processAgent scheme h runDate qr qf aid rows).2.1
          (processAgent scheme h runDate qr qf aid rows).2.2 rest).creditDistributions k =
          some es := by
        cases hce : (processAgent scheme h runDate qr qf aid rows).1.creditEntries with
        | some es0 =>
          simp only [hce] at hk
          rw [lookupStr] at hk
          rw [List.find?_cons_of_neg _ (by simp [Ne.symm hkaid])] at hk
          exact hk
        | none =>
          simp only [hce] at hk
          exact hk
      have hmem := ih _ _ k es htail
      simp only [List.map_cons]
      exact List.mem_cons_of_mem _ hmem


/-! ### `findManager` characterisation -/

/-- The record predicate actually implemented by `findManager`: exact
(case-sensitive) agent-id match and point-in-window validity
`reportsFrom ≤ date ≤ reportsTo` at the single transaction date (a missing or
unparseable `Reports To` is an open-ended window; a missing or unparseable
`Reports From` never matches). -/
def hierRowMatches (aid : String) (d : ℕ) (r : Row) : Bool :=
  decide (getField r "Sales Employee" = some aid) &&
  ((match (getField r "Reports From").bind parseDate with
    | some f => decide (f ≤ d)
    | none => false) &&
   (match (getField r "Reports To").bind parseDate with
    | some t => decide (d ≤ t)
    | none => true))

/-- The manager details built from a matching hierarchy row. -/
def managerOfRow (r : Row) : ManagerDetails :=
  { managerId := getField r "Reports To Person"
    validFrom := (getField r "Reports From").getD "undefined"
    validTo :=
      match getField r "Reports To" with
      | some s => if s = "" then "Indefinite" else s
      | none => "Indefinite" }

lemma findManagerLoop_eq_find (aid : String) (d : ℕ) :
    ∀ rows : List Row,
      findManagerLoop aid d rows = (rows.find? (hierRowMatches aid d)).map managerOfRow
  | [] => rfl
  | r :: rest => by
    by_cases hid : getField r "Sales Employee" = some aid
    · cases hw : (match (getField r "Reports From").bind parseDate with
          | some f => decide (f ≤ d)
          | none => false) &&
          (match (getField r "Reports To").bind parseDate with
           | some t => decide (d ≤ t)
           | none => true) with
      | true =>
        rw [List.find?_cons_of_pos _ (by simp [hierRowMatches, hid, hw])]
        simp [findManagerLoop, hid, hw, managerOfRow]
      | false =>
        rw [List.find?_cons_of_neg _ (by simp [hierRowMatches, hid, hw])]
        simp [findManagerLoop, hid, hw, findManagerLoop_eq_find aid d rest]
    · rw [List.find?_cons_of_neg _ (by simp [hierRowMatches, hid])]
      simp [findManagerLoop, hid, findManagerLoop_eq_find aid d rest]

/-! ### Independence of per-agent payouts (under agent-level qualification) -/

/-- When every qualification rule that resolves resolves to an agent-level
field, the payout recorded for an agent is a function of the scheme and that
agent's own record group alone: whatever other groups the run contains and in
whatever order, the result's `agentPayouts` entry equals the payout of
processing that agent in isolation from the pristine scheme state. -/
lemma payout_lookup_of_clean (scheme : Scheme) (h : List Row) (runDate : ℕ)
    (hclean : ∀ rule ∈ scheme.qualificationRules, ∀ fd,
      findFieldDef scheme.kpiConfig.qualificationFields rule.field = some fd →
      fd.evaluationLevel = "Agent") :
    ∀ (groups : List (String × List Row)) (aid : String) (rows : List Row),
      lookupStr groups aid = some rows →
      lookupStr (processAgents scheme h runDate scheme.qualificationRules
          scheme.kpiConfig.qualificationFields groups).agentPayouts aid =
        some (processAgent scheme h runDate scheme.qualificationRules
          scheme.kpiConfig.qualificationFields aid rows).1.payoutStr := by
  intro groups
  induction groups with
  | nil => intro aid rows hmem; simp [lookupStr] at hmem
  | cons g rest ih =>
    intro aid rows hmem
    obtain ⟨k, rs⟩ := g
    by_cases hk : k = aid
    · subst hk
      have hrows : rs = rows := by
        rw [lookupStr, List.find?_cons_of_pos _ (by simp)] at hmem
        simpa using hmem
      subst hrows
      rw [processAgents, lookupStr, List.find?_cons_of_pos _ (by simp)]
      rfl
    · have hmem' : lookupStr rest aid = some rows := by
        rw [lookupStr, List.find?_cons_of_neg _ (by simp [hk])] at hmem
        exact hmem
      have hst := runQualRules_state_id (processRecords scheme k rs).processed
        scheme.baseMapping.amountField k scheme.qualificationRules
        scheme.kpiConfig.qualificationFields hclean
      have h21 : (processAgent scheme h runDate scheme.qualificationRules
          scheme.kpiConfig.qualificationFields k rs).2.1 = scheme.qualificationRules := hst.1
      have h22 : (processAgent scheme h runDate scheme.qualificationRules
          scheme.kpiConfig.qualificationFields k rs).2.2 =
          scheme.kpiConfig.qualificationFields := hst.2
      rw [processAgents, lookupStr, List.find?_cons_of_neg _ (by simp [hk])]
      rw [h21, h22]
      exact ih aid rows hmem'


/-! ### `processAgent` projections and payout-stage facts -/

lemma processAgent_totalAdjusted (scheme : Scheme) (h : List Row) (runDate : ℕ)
    (qr : List Rule) (qf : List FieldDef) (aid : String) (rows : List Row) :
    (processAgent scheme h runDate qr qf aid rows).1.totalAdjusted =
      (processRecords scheme aid rows).totalAdjusted := rfl

lemma processAgent_qualified (scheme : Scheme) (h : List Row) (runDate : ℕ)
    (qr : List Rule) (qf : List FieldDef) (aid : String) (rows : List Row) :
    (processAgent scheme h runDate qr qf aid rows).1.qualified =
      (runQualRules (processRecords scheme aid rows).processed
        scheme.baseMapping.amountField aid qr qf).qualified := rfl

lemma processAgent_payout (scheme : Scheme) (h : List Row) (runDate : ℕ)
    (qr : List Rule) (qf : List FieldDef) (aid : String) (rows : List Row) :
    (processAgent scheme h runDate qr qf aid rows).1.payout =
      (payoutStage scheme aid
        (runQualRules (processRecords scheme aid rows).processed
          scheme.baseMapping.amountField aid qr qf).qualified
        (processRecords scheme aid rows).totalAdjusted).payout := rfl

lemma processAgent_payoutStr (scheme : Scheme) (h : List Row) (runDate : ℕ)
    (qr : List Rule) (qf : List FieldDef) (aid : String) (rows : List Row) :
    (processAgent scheme h runDate qr qf aid rows).1.payoutStr =
      ratToFixed2 ((processAgent scheme h runDate qr qf aid rows).1.payout) := rfl

lemma processAgent_agentLogs (scheme : Scheme) (h : List Row) (runDate : ℕ)
    (qr : List Rule) (qf : List FieldDef) (aid : String) (rows : List Row) :
    (processAgent scheme h runDate qr qf aid rows).1.agentLogs =
      (runQualRules (processRecords scheme aid rows).processed
          scheme.baseMapping.amountField aid qr qf).logs ++
        (payoutStage scheme aid
          (runQualRules (processRecords scheme aid rows).processed
            scheme.baseMapping.amountField aid qr qf).qualified
          (processRecords scheme aid rows).totalAdjusted).logs := rfl

lemma ratToFixed2_zero : ratToFixed2 0 = "0.00" := by decide

/-- Whatever the qualification outcome, a non-positive total yields payout `0`
when every tier starts at `0` or above. -/
lemma payoutStage_of_nonpos (scheme : Scheme) (aid : String) (q : Bool) (total : ℚ)
    (htot : total ≤ 0) (htiers : ∀ t ∈ scheme.payoutTiers, 0 ≤ t.tfrom) :
    (payoutStage scheme aid q total).payout = 0 := by
  unfold payoutStage
  split_ifs with hq hquota hlt
  · rfl
  · exact absurd ((qltB_iff _ _).mpr
      (lt_of_le_of_lt htot ((qltB_iff _ _).mp hquota))) hlt
  · simp only []
    exact calculateTieredPayout_of_nonpos htot scheme.payoutTiers htiers
  · rfl

/-! ### Concrete scenario data for the claims -/

/-- A minimal scheme: one agent field, one `0–∞ @100%` tier, an `L2 = 20%`
credit split resolved through `MH.csv`. -/
def c1Scheme : Scheme :=
  { effectiveFrom := "2024-01-01"
    quotaAmount := 0
    baseMapping := ⟨"SCH1.csv", "Sales Employee", "Net Value", "Document Date"⟩
    kpiConfig := ⟨[], [], []⟩
    qualificationRules := []
    exclusionRules := []
    adjustmentRules := []
    customRules := []
    payoutTiers := [⟨"t1", 0, none, 100, true⟩]
    creditSplits := [⟨"L2", 20⟩]
    creditHierarchyFile := some "MH.csv" }

def c1RowA : Row :=
  ⟨"r1", [("Sales Employee", "A"), ("Net Value", "300"), ("Document Date", "2024-06-01")]⟩

def c1HierRow : Row :=
  ⟨"h1", [("Sales Employee", "A"), ("Reports To Person", "M"),
    ("Reports From", "2024-01-01"), ("Reports To", "2024-12-31")]⟩

def c1Files : List (String × List Row) := [("SCH1.csv", [c1RowA]), ("MH.csv", [c1HierRow])]

/-- One agent-level `Count >= 0` qualification rule; one record of amount 0. -/
def c2Scheme : Scheme :=
  { c1Scheme with
    kpiConfig := ⟨[⟨"CNT", "Net Value", "Number", "Agent", "Count"⟩], [], []⟩
    qualificationRules := [⟨"q1", "CNT", ">=", .vnum 0⟩]
    payoutTiers := [⟨"t1", 0, none, 10, true⟩]
    creditSplits := []
    creditHierarchyFile := none }

def c2Row : Row :=
  ⟨"z1", [("Sales Employee", "A"), ("Net Value", "0"), ("Document Date", "2024-06-01")]⟩

/-- One qualification rule on a per-record (`evaluationLevel "Record"`) field. -/
def c4Scheme : Scheme :=
  { c1Scheme with
    kpiConfig := ⟨[⟨"F", "f", "String", "Record", "NotApplicable"⟩], [], []⟩
    qualificationRules := [⟨"q1", "F", "CONTAINS", .vstr "X"⟩]
    creditSplits := []
    creditHierarchyFile := none }

def c4RowA : Row :=
  ⟨"a1", [("Sales Employee", "A"), ("Net Value", "10"),
    ("Document Date", "2024-06-01"), ("f", "X")]⟩

def c4RowB : Row :=
  ⟨"b1", [("Sales Employee", "B"), ("Net Value", "10"),
    ("Document Date", "2024-06-01"), ("f", "X")]⟩

/-- Three exclusion rules (the second is the first match on `c5Row`) and one
adjustment rule that would match the record were it not excluded. -/
def c5Scheme : Scheme :=
  { c1Scheme with
    kpiConfig := ⟨[],
      [⟨"Cat", "region", "String", "Record", "NotApplicable"⟩],
      [⟨"Region", "region", "String", "Record", "NotApplicable"⟩]⟩
    exclusionRules :=
      [⟨"e1", "Region", "=", .vstr "EU"⟩,
       ⟨"e2", "Region", "=", .vstr "US"⟩,
       ⟨"e3", "Region", "CONTAINS", .vstr "U"⟩]
    adjustmentRules :=
      [⟨"a1", "Cat", "CONTAINS", .vstr "U", "Amount", "percentage", 50⟩]
    creditSplits := []
    creditHierarchyFile := none }

def c5Row : Row :=
  ⟨"r5", [("Sales Employee", "A"), ("Net Value", "100"),
    ("Document Date", "2024-06-01"), ("region", "US")]⟩

/-- Four adjustment rules exercising all four target/type combinations. -/
def c6Scheme : Scheme :=
  { c1Scheme with
    kpiConfig := ⟨[], [⟨"Cat", "cat", "String", "Record", "NotApplicable"⟩], []⟩
    adjustmentRules :=
      [⟨"a1", "Cat", "=", .vstr "X", "Amount", "percentage", 10⟩,
       ⟨"a2", "Cat", "CONTAINS", .vstr "X", "Amount", "fixed", 5⟩,
       ⟨"a3", "Cat", "=", .vstr "X", "Rate", "percentage", 200⟩,
       ⟨"a4", "Cat", "=", .vstr "X", "Rate", "fixed", 3⟩]
    creditSplits := []
    creditHierarchyFile := none }

def c6Row : Row :=
  ⟨"r6", [("Sales Employee", "A"), ("Net Value", "100"),
    ("Document Date", "2024-06-01"), ("cat", "X")]⟩

/-- The spec's two-tier example: `0–1000 @5%`, `1000–∞ @10%`. -/
def c7Tiers : List Tier := [⟨"t1", 0, some 1000, 5, true⟩, ⟨"t2", 1000, none, 10, true⟩]

/-- Sorted ascending by `from` but overlapping. -/
def c7OverlapTiers : List Tier :=
  [⟨"t1", 0, some 1000, 10, true⟩, ⟨"t2", 500, some 2000, 10, true⟩]

/-- A single valid (trivially sorted, non-overlapping) tier with negative rate. -/
def c8NegTiers : List Tier := [⟨"t1", 0, none, mkRat (-10) 1, true⟩]

/-- `c1Scheme` with an unparseable `effectiveFrom`. -/
def c9Scheme : Scheme :=
  { c1Scheme with effectiveFrom := "garbage", creditSplits := [], creditHierarchyFile := none }

def c9Files : List (String × List Row) := [("SCH1.csv", [c1RowA])]

/-- A positive quota of 500 against an agent total of 300. -/
def c10Scheme : Scheme :=
  { c1Scheme with quotaAmount := 500, creditSplits := [], creditHierarchyFile := none }

def c10Row : Row :=
  ⟨"r10", [("Sales Employee", "A"), ("Net Value", "300"), ("Document Date", "2024-06-01")]⟩


/-! ### The hierarchy lookup of the second engine copy (claim C3) -/

/-- ASCII lower-casing (models `String.prototype.toLowerCase` on the
identifiers at hand). -/
def lowerChar (c : Char) : Char :=
  if 'A' ≤ c ∧ c ≤ 'Z' then Char.ofNat (c.toNat + 32) else c

def lowerStr (s : String) : String := String.mk (s.toList.map lowerChar)

/-- ASCII upper-casing (models `String.prototype.toUpperCase` on the level
labels at hand). -/
def upperChar (c : Char) : Char :=
  if 'a' ≤ c ∧ c ≤ 'z' then Char.ofNat (c.toNat - 32) else c

def upperStr (s : String) : String := String.mk (s.toList.map upperChar)

namespace IndexTs

/-- The agent/level match of `findManager` in `src/src/types/index.ts`:
`String(safeGet(row, 'AgentID')).toLowerCase() === agentId.toLowerCase()` and
`String(safeGet(row, 'Level')).toUpperCase() === level.toUpperCase()`
(a missing cell stringifies to `"undefined"`). -/
def findManagerRowMatches (agentId level : String) (row : Row) : Bool :=
  (lowerStr ((getField row "AgentID").getD "undefined") = lowerStr agentId) &&
  (upperStr ((getField row "Level").getD "undefined") = upperStr level)

/-- The row loop of the five-parameter `findManager`: on an agent/level match,
both `ReportsFrom` and `ReportsToEnd` must parse and the window must overlap
`[schemeEffectiveFrom, runAsDate]` (`reportsFrom ≤ runAsDate` and
`reportsToEnd ≥ schemeEffectiveFrom`), in which case the row's `ManagerID`
cell is returned; otherwise the loop continues.  `parseDate` here models
`new Date(s + 'T00:00:00Z')`, which accepts exactly the ISO `YYYY-MM-DD`
strings our `parseDate` accepts. -/
def findManagerLoop (agentId level : String) (eff runAs : ℕ) : List Row → Option String
  | [] => none
  | row :: rest =>
    if findManagerRowMatches agentId level row then
      match (getField row "ReportsFrom").bind parseDate,
          (getField row "ReportsToEnd").bind parseDate with
      | some f, some t =>
        if decide (f ≤ runAs) && decide (eff ≤ t) then getField row "ManagerID"
        else findManagerLoop agentId level eff runAs rest
      | _, _ => findManagerLoop agentId level eff runAs rest
    else findManagerLoop agentId level eff runAs rest

/-- `findManager(agentId, level, hierarchyData, schemeEffectiveFrom,
runAsDate)` from `src/src/types/index.ts` (the second engine copy).  Falsy
arguments — empty agent id, empty level, or absent dates — yield `null`; so
does an exhausted scan.  (The JS `!hierarchyData` guard only rejects a
null/undefined array — an empty array is truthy — so it needs no model over
`List`.) -/
def findManager (agentId level : String) (hierarchyData : List Row)
    (schemeEffectiveFrom runAsDate : Option ℕ) : Option String :=
  match schemeEffectiveFrom, runAsDate with
  | some eff, some runAs =>
    if agentId = "" ∨ level = "" then none
    else findManagerLoop agentId level eff runAs hierarchyData
  | _, _ => none

end IndexTs

/-- The selection predicate exactly as claim C3 states it: agent id matched
case-insensitively, level matched case-insensitively, and the record's
validity window overlapping `[schemeEffectiveFrom, runAsOfDate]`, i.e.
`reportsFrom ≤ runAsOfDate ∧ reportsToEnd ≥ schemeEffectiveFrom` (a record
whose window dates do not both parse has no validity window and is never
selected). -/
def claimSelectsHierRow (agentId level : String) (schemeEffFrom runAsOf : ℕ)
    (row : Row) : Bool :=
  (lowerStr ((getField row "AgentID").getD "undefined") = lowerStr agentId) &&
  (upperStr ((getField row "Level").getD "undefined") = upperStr level) &&
  (match (getField row "ReportsFrom").bind parseDate,
      (getField row "ReportsToEnd").bind parseDate with
   | some f, some t => decide (f ≤ runAsOf) && decide (schemeEffFrom ≤ t)
   | _, _ => false)

lemma claimSelectsHierRow_eq (agentId level : String) (eff runAs : ℕ) (row : Row) :
    claimSelectsHierRow agentId level eff runAs row =
      (IndexTs.findManagerRowMatches agentId level row &&
        (match (getField row "ReportsFrom").bind parseDate,
            (getField row "ReportsToEnd").bind parseDate with
         | some f, some t => decide (f ≤ runAs) && decide (eff ≤ t)
         | _, _ => false)) := by
  rw [claimSelectsHierRow, IndexTs.findManagerRowMatches, Bool.and_assoc]

/-- The row loop of the five-parameter `findManager` returns exactly the
`ManagerID` of the first row satisfying the claim's selection predicate. -/
lemma findManagerLoopTs_eq_find (agentId level : String) (eff runAs : ℕ) :
    ∀ rows : List Row,
      IndexTs.findManagerLoop agentId level eff runAs rows =
        (rows.find? (claimSelectsHierRow agentId level eff runAs)).bind
          (fun row => getField row "ManagerID")
  | [] => rfl
  | row :: rest => by
    have hpred := claimSelectsHierRow_eq agentId level eff runAs row
    by_cases hm : IndexTs.findManagerRowMatches agentId level row = true
    · cases hF : (getField row "ReportsFrom").bind parseDate with
      | none =>
        rw [List.find?_cons_of_neg _ (by simp [hpred, hm, hF])]
        simp [IndexTs.findManagerLoop, hm, hF,
          findManagerLoopTs_eq_find agentId level eff runAs rest]
      | some f =>
        cases hT : (getField row "ReportsToEnd").bind parseDate with
        | none =>
          rw [List.find?_cons_of_neg _ (by simp [hpred, hm, hF, hT])]
          simp [IndexTs.findManagerLoop, hm, hF, hT,
            findManagerLoopTs_eq_find agentId level eff runAs rest]
        | some t =>
          cases hw : decide (f ≤ runAs) && decide (eff ≤ t) with
          | true =>
            rw [List.find?_cons_of_pos _ (by simp [hpred, hm, hF, hT, hw])]
            simp [IndexTs.findManagerLoop, hm, hF, hT, hw]
          | false =>
            rw [List.find?_cons_of_neg _ (by simp [hpred, hm, hF, hT, hw])]
            simp [IndexTs.findManagerLoop, hm, hF, hT, hw,
              findManagerLoopTs_eq_find agentId level eff runAs rest]
    · rw [List.find?_cons_of_neg _ (by simp [hpred, hm])]
      simp [IndexTs.findManagerLoop, hm,
        findManagerLoopTs_eq_find agentId level eff runAs rest]

/-! ### Claim C1 — credit distributions are keyed by the originating agent -/

/-- C1 is false on the code: in the claim's own end-to-end scenario (credit
split `L2 = 20%`, hierarchy record mapping agent `A` to manager `M` valid for
the run date, base payout 300) the engine records the `"60.00"` distribution
under `creditDistributions["A"]` (the originating agent), with `M` only in the
record's `toAgent` field; `creditDistributions["M"]` does not exist. -/
theorem C1_counterexample :
    (runScheme c1Scheme c1Files "2024-06-15").map
        (fun res => (lookupStr res.creditDistributions "M",
          lookupStr res.creditDistributions "A")) =
      .ok (none,
        some [CreditEntry.dist "A" "M" "L2" 20 "60.00" "MH.csv"
          "2024-01-01 to 2024-12-31"]) := by
  decide

/-- C1 (amended): the credit distribution of `basePayout * percentage / 100` is
recorded under the *originating* agent's id, with the resolved manager as the
record's `toAgent`: every key of `creditDistributions` is a processed agent's
id, and in the claim's scenario `creditDistributions["A"]` holds exactly one
record with `toAgent = "M"` and amount `"60.00"`. -/
theorem C1_credit_ledgered_under_originating_agent :
    (∀ (scheme : Scheme) (h : List Row) (runDate : ℕ)
        (groups : List (String × List Row)) (qr : List Rule) (qf : List FieldDef)
        (k : String) (es : List CreditEntry),
        lookupStr (processAgents scheme h runDate qr qf groups).creditDistributions k =
          some es →
        k ∈ groups.map Prod.fst) ∧
      (runScheme c1Scheme c1Files "2024-06-15").map
          (fun res => lookupStr res.creditDistributions "A") =
        .ok (some [CreditEntry.dist "A" "M" "L2" 20 "60.00" "MH.csv"
          "2024-01-01 to 2024-12-31"]) := by
  constructor
  · intro scheme h runDate groups qr qf k es hk
    exact creditDistributions_key_mem scheme h runDate groups qr qf k es hk
  · decide

theorem C1_credit_ledgered_under_originating_agent_witness :
    "A" ∈ (([("A", [c1RowA])] : List (String × List Row)).map Prod.fst) :=
  C1_credit_ledgered_under_originating_agent.1 c1Scheme [c1HierRow] 20240615
    [("A", [c1RowA])] [] [] "A"
    [CreditEntry.dist "A" "M" "L2" 20 "60.00" "MH.csv" "2024-01-01 to 2024-12-31"]
    (by decide)

/-! ### Claim C2 — agents with non-positive totals -/

/-- C2 is false on the code: an agent whose `totalAdjustedAmount` is `0 ≤ 0`
still has its qualification rules evaluated (a `Qualification` log entry is
produced), remains `qualified = true` when they pass, and no zero-credit skip
exists; only the payout string `"0.00"` part of the claim holds. -/
theorem C2_counterexample :
    (processAgent c2Scheme [] 20240615 c2Scheme.qualificationRules
        c2Scheme.kpiConfig.qualificationFields "A" [c2Row]).1.totalAdjusted = 0 ∧
    (processAgent c2Scheme [] 20240615 c2Scheme.qualificationRules
        c2Scheme.kpiConfig.qualificationFields "A" [c2Row]).1.qualified = true ∧
    (processAgent c2Scheme [] 20240615 c2Scheme.qualificationRules
        c2Scheme.kpiConfig.qualificationFields "A" [c2Row]).1.agentLogs =
      [⟨"Qualification", "q1", "A", true⟩, ⟨"PayoutCalculation", "", "A", true⟩] ∧
    (processAgent c2Scheme [] 20240615 c2Scheme.qualificationRules
        c2Scheme.kpiConfig.qualificationFields "A" [c2Row]).1.payoutStr = "0.00" := by
  decide

/-- C2 (amended): for an agent whose total adjusted amount is `≤ 0`, the
recorded payout is `0` and `agentPayouts[agentId] = "0.00"` whenever every
payout tier starts at `0` or above — but the agent is not thereby disqualified
and qualification rules still run (see the counterexample). -/
theorem C2_nonpos_total_pays_zero (scheme : Scheme) (h : List Row) (runDate : ℕ)
    (qr : List Rule) (qf : List FieldDef) (aid : String) (rows : List Row)
    (htot : (processAgent scheme h runDate qr qf aid rows).1.totalAdjusted ≤ 0)
    (htiers : ∀ t ∈ scheme.payoutTiers, 0 ≤ t.tfrom) :
    (processAgent scheme h runDate qr qf aid rows).1.payout = 0 ∧
    (processAgent scheme h runDate qr qf aid rows).1.payoutStr = "0.00" := by
  rw [processAgent_totalAdjusted] at htot
  have h0 := payoutStage_of_nonpos scheme aid
    ((runQualRules (processRecords scheme aid rows).processed
      scheme.baseMapping.amountField aid qr qf).qualified)
    ((processRecords scheme aid rows).totalAdjusted) htot htiers
  constructor
  · rw [processAgent_payout]
    exact h0
  · rw [processAgent_payoutStr, processAgent_payout, h0]
    exact ratToFixed2_zero

theorem C2_nonpos_total_pays_zero_witness :
    (processAgent c2Scheme [] 20240615 c2Scheme.qualificationRules
        c2Scheme.kpiConfig.qualificationFields "A" [c2Row]).1.payout = 0 ∧
    (processAgent c2Scheme [] 20240615 c2Scheme.qualificationRules
        c2Scheme.kpiConfig.qualificationFields "A" [c2Row]).1.payoutStr = "0.00" :=
  C2_nonpos_total_pays_zero c2Scheme [] 20240615 c2Scheme.qualificationRules
    c2Scheme.kpiConfig.qualificationFields "A" [c2Row]
    (le_of_eq (by decide))
    (by intro t ht; fin_cases ht; norm_num [c2Scheme])

/-! ### Claim C3 — hierarchy record selection -/

/-- The hierarchy row of the claim's scenario, in the `AgentID`/`Level` schema
of the `src/src/types/index.ts` engine: valid for January 2024 only. -/
def c3TsRow : Row :=
  ⟨"h1", [("AgentID", "A1"), ("Level", "L2"), ("ManagerID", "M"),
    ("ReportsFrom", "2024-01-01"), ("ReportsToEnd", "2024-01-31")]⟩

/-- C3 (confirmed, against `findManager` in `src/src/types/index.ts:281`, the
five-parameter lookup whose signature the claim quantifies over): for every
agent id, level, hierarchy record list and reference dates, the lookup
returns the `ManagerID` of the first record matching the agent id
case-insensitively and the level case-insensitively whose validity window
overlaps `[schemeEffectiveFrom, runAsOfDate]`
(`reportsFrom ≤ runAsOfDate ∧ reportsToEnd ≥ schemeEffectiveFrom`), and
returns `null` rather than an error when no such record (or no usable
argument) exists. -/
theorem C3_level_overlap_selection (agentId level : String) (ha : agentId ≠ "")
    (hl : level ≠ "") (rows : List Row) (eff runAs : ℕ) :
    IndexTs.findManager agentId level rows (some eff) (some runAs) =
      (rows.find? (claimSelectsHierRow agentId level eff runAs)).bind
        (fun row => getField row "ManagerID") ∧
    (rows.find? (claimSelectsHierRow agentId level eff runAs) = none →
      IndexTs.findManager agentId level rows (some eff) (some runAs) = none) ∧
    IndexTs.findManager agentId level rows none (some runAs) = none ∧
    IndexTs.findManager agentId level rows (some eff) none = none := by
  have hchar : IndexTs.findManager agentId level rows (some eff) (some runAs) =
      (rows.find? (claimSelectsHierRow agentId level eff runAs)).bind
        (fun row => getField row "ManagerID") := by
    show (if agentId = "" ∨ level = "" then none
      else IndexTs.findManagerLoop agentId level eff runAs rows) = _
    rw [if_neg (not_or.mpr ⟨ha, hl⟩)]
    exact findManagerLoopTs_eq_find agentId level eff runAs rows
  refine ⟨hchar, fun hn => ?_, rfl, rfl⟩
  rw [hchar, hn]
  rfl

theorem C3_level_overlap_selection_witness :
    (IndexTs.findManager "a1" "l2" [c3TsRow] (some 20240101) (some 20240615) =
      (([c3TsRow] : List Row).find? (claimSelectsHierRow "a1" "l2" 20240101 20240615)).bind
        (fun row => getField row "ManagerID") ∧
      (([c3TsRow] : List Row).find? (claimSelectsHierRow "a1" "l2" 20240101 20240615) =
          none →
        IndexTs.findManager "a1" "l2" [c3TsRow] (some 20240101) (some 20240615) = none) ∧
      IndexTs.findManager "a1" "l2" [c3TsRow] none (some 20240615) = none ∧
      IndexTs.findManager "a1" "l2" [c3TsRow] (some 20240101) none = none) ∧
    IndexTs.findManager "a1" "l2" [c3TsRow] (some 20240101) (some 20240615) =
      some "M" :=
  ⟨C3_level_overlap_selection "a1" "l2" (by decide) (by decide) [c3TsRow]
      20240101 20240615,
    by decide⟩

/-! ### Claim C4 — independence of per-agent processing -/

/-- C4 is false on the code: the qualification loop mutates shared rule and
field objects in place when a rule resolves to a non-agent-level field, so a
later agent observes the first agent's mutation.  With one per-record
`CONTAINS` qualification rule and identical records for agents `A` and `B`,
agent `B` is paid `"10.00"` when processed alone but `"0.00"` when `A` is
processed first — removing another agent's records changes
`agentPayouts["B"]`. -/
theorem C4_counterexample :
    (runScheme c4Scheme [("SCH1.csv", [c4RowA, c4RowB])] "2024-06-15").map
        (fun res => lookupStr res.agentPayouts "B") = .ok (some "0.00") ∧
    (runScheme c4Scheme [("SCH1.csv", [c4RowB])] "2024-06-15").map
        (fun res => lookupStr res.agentPayouts "B") = .ok (some "10.00") := by
  decide

/-- C4 (amended): when every qualification rule that resolves a field
definition resolves an agent-level one, an agent's recorded payout is a
function of the scheme and its own record group alone — the same whatever
other groups exist and in whatever order they are processed. -/
theorem C4_per_agent_independence (scheme : Scheme) (h : List Row) (runDate : ℕ)
    (hclean : ∀ rule ∈ scheme.qualificationRules, ∀ fd,
      findFieldDef scheme.kpiConfig.qualificationFields rule.field = some fd →
      fd.evaluationLevel = "Agent")
    (groups : List (String × List Row)) (aid : String) (rows : List Row)
    (hmem : lookupStr groups aid = some rows) :
    lookupStr (processAgents scheme h runDate scheme.qualificationRules
        scheme.kpiConfig.qualificationFields groups).agentPayouts aid =
      some (processAgent scheme h runDate scheme.qualificationRules
        scheme.kpiConfig.qualificationFields aid rows).1.payoutStr :=
  payout_lookup_of_clean scheme h runDate hclean groups aid rows hmem

theorem C4_per_agent_independence_witness :
    lookupStr (processAgents c1Scheme [] 20240615 c1Scheme.qualificationRules
        c1Scheme.kpiConfig.qualificationFields
        [("A", [c1RowA]), ("B", [c4RowB])]).agentPayouts "B" =
      some (processAgent c1Scheme [] 20240615 c1Scheme.qualificationRules
        c1Scheme.kpiConfig.qualificationFields "B" [c4RowB]).1.payoutStr :=
  C4_per_agent_independence c1Scheme [] 20240615
    (fun rule hr => absurd hr (List.not_mem_nil rule))
    [("A", [c1RowA]), ("B", [c4RowB])] "B" [c4RowB] (by decide)

/-! ### Claim C5 — exclusion rules short-circuit -/

/-- C5 (confirmed): for a record with a parseable amount that matches some
exclusion rule, the first matching rule in declared order wins: the record is
excluded with exactly that one `Exclusion` log entry, no adjustment (or other)
record-level entries, and a contribution of exactly `0` to the agent's total
adjusted amount wherever the record sits among the agent's records. -/
theorem C5_first_exclusion_short_circuits (scheme : Scheme) (agentId : String) (r : Row)
    (hamt : parseAmount r scheme.baseMapping.amountField ≠ none)
    (hex : ∃ rule ∈ scheme.exclusionRules,
      exclusionMatches scheme.kpiConfig.exclusionFields r rule = true) :
    ∃ rule,
      firstExclusion scheme.exclusionRules scheme.kpiConfig.exclusionFields r = some rule ∧
      exclusionMatches scheme.kpiConfig.exclusionFields r rule = true ∧
      (∃ pre post, scheme.exclusionRules = pre ++ rule :: post ∧
        ∀ r' ∈ pre, exclusionMatches scheme.kpiConfig.exclusionFields r r' = false) ∧
      (processRecord scheme agentId r).processed = none ∧
      (processRecord scheme agentId r).logs = [⟨"Exclusion", rule.id, r.rid, agentId⟩] ∧
      (∀ pre post : List Row,
        (processRecords scheme agentId (pre ++ r :: post)).totalAdjusted =
          (processRecords scheme agentId (pre ++ post)).totalAdjusted) := by
  obtain ⟨amt0, hamt0⟩ := Option.ne_none_iff_exists'.mp hamt
  cases hfe : firstExclusion scheme.exclusionRules scheme.kpiConfig.exclusionFields r with
  | none =>
    rw [firstExclusion, List.find?_eq_none] at hfe
    obtain ⟨rule0, hr0, hm0⟩ := hex
    exact absurd hm0 (by simpa using hfe rule0 hr0)
  | some rule =>
    obtain ⟨hmatch, pre, post, hdec, hpre⟩ := List.find?_eq_some.mp hfe
    have hpr : processRecord scheme agentId r =
        ⟨none, amt0, [⟨"Exclusion", rule.id, r.rid, agentId⟩]⟩ := by
      simp [processRecord, hamt0, hfe]
    have hcontrib : recordContribution scheme agentId r = 0 := by
      rw [recordContribution, hpr]
    refine ⟨rule, rfl, hmatch, ⟨pre, post, hdec, fun r' hr' => ?_⟩, ?_, ?_, ?_⟩
    · have := hpre r' hr'
      simpa using this
    · rw [hpr]
    · rw [hpr]
    · exact processRecords_skip scheme agentId r hcontrib

theorem C5_first_exclusion_short_circuits_witness :
    ∃ rule,
      firstExclusion c5Scheme.exclusionRules c5Scheme.kpiConfig.exclusionFields c5Row =
        some rule ∧
      exclusionMatches c5Scheme.kpiConfig.exclusionFields c5Row rule = true ∧
      (∃ pre post, c5Scheme.exclusionRules = pre ++ rule :: post ∧
        ∀ r' ∈ pre, exclusionMatches c5Scheme.kpiConfig.exclusionFields c5Row r' = false) ∧
      (processRecord c5Scheme "A" c5Row).processed = none ∧
      (processRecord c5Scheme "A" c5Row).logs = [⟨"Exclusion", rule.id, c5Row.rid, "A"⟩] ∧
      (∀ pre post : List Row,
        (processRecords c5Scheme "A" (pre ++ c5Row :: post)).totalAdjusted =
          (processRecords c5Scheme "A" (pre ++ post)).totalAdjusted) :=
  C5_first_exclusion_short_circuits c5Scheme "A" c5Row (by decide) (by decide)

/-! ### Claim C6 — adjustment rules compose in declared order -/

/-- C6 (confirmed): for a non-excluded record with parseable base amount, the
record's final adjusted amount is `currentAmount * rateMultiplier` where the
`(currentAmount, rateMultiplier)` state is the left fold of the
specification's four update cases over the adjustment rules in declared order,
starting from `(baseAmount, 1)`, each rule's condition being evaluated against
the original record fields while its effect sees the running state. -/
theorem C6_adjustments_compose (scheme : Scheme) (agentId : String) (r : Row) (amt0 : ℚ)
    (hamt : parseAmount r scheme.baseMapping.amountField = some amt0)
    (hnoex : firstExclusion scheme.exclusionRules scheme.kpiConfig.exclusionFields r = none) :
    (processRecord scheme agentId r).processed =
      some ⟨r,
        (scheme.adjustmentRules.foldl (claimAdjustStep scheme.kpiConfig.adjustmentFields r)
          (amt0, 1)).1 *
        (scheme.adjustmentRules.foldl (claimAdjustStep scheme.kpiConfig.adjustmentFields r)
          (amt0, 1)).2⟩ := by
  have hfst := applyAdjustments_fst scheme.kpiConfig.adjustmentFields r agentId
    scheme.adjustmentRules (amt0, 1)
  simp [processRecord, hamt, hnoex, qmul_eq, hfst]

theorem C6_adjustments_compose_witness :
    (processRecord c6Scheme "A" c6Row).processed =
      some ⟨c6Row,
        (c6Scheme.adjustmentRules.foldl
          (claimAdjustStep c6Scheme.kpiConfig.adjustmentFields c6Row) (100, 1)).1 *
        (c6Scheme.adjustmentRules.foldl
          (claimAdjustStep c6Scheme.kpiConfig.adjustmentFields c6Row) (100, 1)).2⟩ :=
  C6_adjustments_compose c6Scheme "A" c6Row 100 (by decide) (by decide)


/-! ### Claim C7 — tiered payout as a sum of slices -/

/-- C7 is false as stated: "sorted ascending by `from`" alone does not give the
slice-sum semantics when tiers overlap.  These two percentage tiers are sorted
ascending by `from`, yet on amount 800 the code stops after the first tier
(`80`) while the slice-sum formula yields `110`. -/
theorem C7_counterexample :
    sortTiers c7OverlapTiers = c7OverlapTiers ∧
    (∀ t ∈ c7OverlapTiers, t.isPercentage = true) ∧
    calculateTieredPayout 800 c7OverlapTiers = 80 ∧
    (c7OverlapTiers.map (fun t => tierSlice 800 t * t.rate / 100)).sum = 110 := by
  refine ⟨by decide, by decide, by decide, ?_⟩
  norm_num [c7OverlapTiers, tierSlice, min_def, max_def]

/-- C7 (amended): for a sorted *and non-overlapping* list of percentage tiers,
the tiered payout equals the sum over tiers of
`max(0, min(amount, to) - from) * rate / 100` (a missing `to` meaning `+∞`), and on
the spec's two-tier example an amount of 1500 yields exactly `"100.00"`. -/
theorem C7_payout_is_slice_sum :
    (∀ (amount : ℚ) (tiers : List Tier), tiersOrderedB tiers = true →
      (∀ t ∈ tiers, t.isPercentage = true) →
      calculateTieredPayout amount tiers =
        (tiers.map (fun t => tierSlice amount t * t.rate / 100)).sum) ∧
    ratToFixed2 (calculateTieredPayout 1500 c7Tiers) = "100.00" := by
  constructor
  · intro amount tiers ho hp
    unfold calculateTieredPayout
    rw [sortTiers_eq_self tiers ho, tieredLoop_eq_sum amount tiers ho]
    congr 1
    apply List.map_congr_left
    intro t ht
    rw [tierContribution, if_pos (hp t ht)]
  · decide

theorem C7_payout_is_slice_sum_witness :
    calculateTieredPayout 1500 c7Tiers =
      (c7Tiers.map (fun t => tierSlice 1500 t * t.rate / 100)).sum ∧
    ratToFixed2 (calculateTieredPayout 1500 c7Tiers) = "100.00" :=
  ⟨C7_payout_is_slice_sum.1 1500 c7Tiers (by decide) (by decide),
    C7_payout_is_slice_sum.2⟩

/-! ### Claim C8 — monotonicity of the tiered payout -/

/-- C8 is false as stated: contiguity/non-overlap alone does not make the
payout monotone — a single valid unbounded tier with a negative rate is
decreasing (payout 0 at amount 0, −10 at amount 100). -/
theorem C8_counterexample :
    tiersOrderedB c8NegTiers = true ∧
    calculateTieredPayout 0 c8NegTiers = 0 ∧
    calculateTieredPayout 100 c8NegTiers = mkRat (-10) 1 ∧
    ¬ (calculateTieredPayout 0 c8NegTiers ≤ calculateTieredPayout 100 c8NegTiers) := by
  refine ⟨by decide, by decide, by decide, ?_⟩
  rw [show calculateTieredPayout 0 c8NegTiers = 0 from by decide,
    show calculateTieredPayout 100 c8NegTiers = mkRat (-10) 1 from by decide,
    Rat.mkRat_eq_div]
  norm_num

/-- C8 (amended): for a sorted, non-overlapping tier configuration with
non-negative rates, the tiered payout is monotone non-decreasing in the
amount. -/
theorem C8_payout_monotone (tiers : List Tier) (ho : tiersOrderedB tiers = true)
    (hr : ∀ t ∈ tiers, 0 ≤ t.rate) (a b : ℚ) (hab : a ≤ b) :
    calculateTieredPayout a tiers ≤ calculateTieredPayout b tiers := by
  unfold calculateTieredPayout
  rw [sortTiers_eq_self tiers ho, tieredLoop_eq_sum a tiers ho,
    tieredLoop_eq_sum b tiers ho]
  exact List.sum_le_sum fun t ht => tierContribution_mono t (hr t ht) hab

theorem C8_payout_monotone_witness :
    calculateTieredPayout 500 c7Tiers ≤ calculateTieredPayout 1500 c7Tiers :=
  C8_payout_monotone c7Tiers (by decide)
    (by intro t ht; simp [c7Tiers] at ht; rcases ht with rfl | rfl <;> norm_num)
    500 1500 (by norm_num)

/-! ### Claim C9 — fatal error conditions -/

/-- C9 is false on the code for one of its three conditions: an unparseable
`scheme.effectiveFrom` does *not* abort the run — `parseDate` yields `null`
and the date filter simply loses its lower bound, the run completing
normally. -/
theorem C9_counterexample :
    parseDate c9Scheme.effectiveFrom = none ∧
    (runScheme c9Scheme c9Files "2024-06-15").isOk = true := by
  decide

/-- C9 (amended): `runScheme` throws a single error naming the missing
artifact when the run-as-of date is unparseable or when the base data file is
falsy or absent from the uploaded-file table, returning no partial result; an
unparseable `effectiveFrom`, however, does not abort the run. -/
theorem C9_fatal_conditions :
    (∀ (scheme : Scheme) (files : List (String × List Row)) (ds : String),
      parseDate ds = none →
      runScheme scheme files ds = .error ("Invalid runAsOfDate: " ++ ds)) ∧
    (∀ (scheme : Scheme) (files : List (String × List Row)) (ds : String) (d : ℕ),
      parseDate ds = some d →
      (scheme.baseMapping.sourceFile = "" ∨
        lookupFile files scheme.baseMapping.sourceFile = none) →
      runScheme scheme files ds =
        .error ("Base data file \"" ++ scheme.baseMapping.sourceFile ++
          "\" not found in uploadedFiles.")) ∧
    (runScheme c9Scheme c9Files "2024-06-15").isOk = true := by
  refine ⟨?_, ?_, by decide⟩
  · intro scheme files ds hds
    rw [runScheme, hds]
  · intro scheme files ds d hds hbase
    have hnone : (if scheme.baseMapping.sourceFile = "" then (none : Option (List Row))
        else lookupFile files scheme.baseMapping.sourceFile) = none := by
      rcases hbase with hb | hb
      · rw [if_pos hb]
      · rw [hb]
        split_ifs <;> rfl
    simp only [runScheme, hds, hnone]

theorem C9_fatal_conditions_witness :
    runScheme c9Scheme [] "bad-date" = .error ("Invalid runAsOfDate: " ++ "bad-date") ∧
    runScheme c9Scheme [] "2024-06-15" =
      .error ("Base data file \"" ++ c9Scheme.baseMapping.sourceFile ++
        "\" not found in uploadedFiles.") :=
  ⟨C9_fatal_conditions.1 c9Scheme [] "bad-date" (by decide),
    C9_fatal_conditions.2.1 c9Scheme [] "2024-06-15" 20240615 (by decide)
      (Or.inr (by decide))⟩

/-! ### Claim C10 — quota gating -/

/-- C10 (confirmed): with a positive quota, a qualified agent below quota gets
payout `0` / `"0.00"` with a failed `Quota` log entry and no tier calculation
(no `PayoutCalculation` entry), while a qualified agent at or above quota has
the tiers applied to the *full* total adjusted amount, not the excess. -/
theorem C10_quota_gate (scheme : Scheme) (h : List Row) (runDate : ℕ)
    (qr : List Rule) (qf : List FieldDef) (aid : String) (rows : List Row)
    (hq : 0 < scheme.quotaAmount)
    (hqual : (processAgent scheme h runDate qr qf aid rows).1.qualified = true) :
    ((processAgent scheme h runDate qr qf aid rows).1.totalAdjusted <
        scheme.quotaAmount →
      (processAgent scheme h runDate qr qf aid rows).1.payout = 0 ∧
      (processAgent scheme h runDate qr qf aid rows).1.payoutStr = "0.00" ∧
      (⟨"Quota", "", aid, false⟩ : AgentLog) ∈
        (processAgent scheme h runDate qr qf aid rows).1.agentLogs ∧
      ∀ e ∈ (processAgent scheme h runDate qr qf aid rows).1.agentLogs,
        e.ruleType ≠ "PayoutCalculation") ∧
    (scheme.quotaAmount ≤
        (processAgent scheme h runDate qr qf aid rows).1.totalAdjusted →
      (processAgent scheme h runDate qr qf aid rows).1.payout =
        calculateTieredPayout
          (processAgent scheme h runDate qr qf aid rows).1.totalAdjusted
          scheme.payoutTiers) := by
  rw [processAgent_qualified] at hqual
  constructor
  · intro hlt
    rw [processAgent_totalAdjusted] at hlt
    have hps : (payoutStage scheme aid
        (runQualRules (processRecords scheme aid rows).processed
          scheme.baseMapping.amountField aid qr qf).qualified
        (processRecords scheme aid rows).totalAdjusted) =
        ⟨0, [⟨"Quota", "", aid, false⟩]⟩ := by
      unfold payoutStage
      rw [if_pos hqual, if_pos ((qltB_iff _ _).mpr hq), if_pos ((qltB_iff _ _).mpr hlt)]
    refine ⟨?_, ?_, ?_, ?_⟩
    · rw [processAgent_payout, hps]
    · rw [processAgent_payoutStr, processAgent_payout, hps]
      exact ratToFixed2_zero
    · rw [processAgent_agentLogs, hps]
      exact List.mem_append.mpr (Or.inr (by simp))
    · intro e he
      rw [processAgent_agentLogs, hps] at he
      rcases List.mem_append.mp he with hq1 | hq2
      · rcases runQualRules_log_types (processRecords scheme aid rows).processed
          scheme.baseMapping.amountField aid qr qf e hq1 with h1 | h1 <;>
          rw [h1] <;> decide
      · simp at hq2
        rw [hq2]
        simp
  · intro hge
    rw [processAgent_totalAdjusted] at hge
    have hnlt : qltB (processRecords scheme aid rows).totalAdjusted
        scheme.quotaAmount = false :=
      Bool.eq_false_iff.mpr fun hcon => absurd ((qltB_iff _ _).mp hcon) (not_lt.mpr hge)
    have hps : (payoutStage scheme aid
        (runQualRules (processRecords scheme aid rows).processed
          scheme.baseMapping.amountField aid qr qf).qualified
        (processRecords scheme aid rows).totalAdjusted) =
        ⟨calculateTieredPayout (processRecords scheme aid rows).totalAdjusted
            scheme.payoutTiers,
          [⟨"Quota", "", aid, true⟩, ⟨"PayoutCalculation", "", aid, true⟩]⟩ := by
      unfold payoutStage
      rw [if_pos hqual, if_pos ((qltB_iff _ _).mpr hq), hnlt]
      simp
    rw [processAgent_payout, processAgent_totalAdjusted, hps]

theorem C10_quota_gate_witness :
    ((processAgent c10Scheme [] 20240615 c10Scheme.qualificationRules
        c10Scheme.kpiConfig.qualificationFields "A" [c10Row]).1.totalAdjusted <
        c10Scheme.quotaAmount →
      (processAgent c10Scheme [] 20240615 c10Scheme.qualificationRules
        c10Scheme.kpiConfig.qualificationFields "A" [c10Row]).1.payout = 0 ∧
      (processAgent c10Scheme [] 20240615 c10Scheme.qualificationRules
        c10Scheme.kpiConfig.qualificationFields "A" [c10Row]).1.payoutStr = "0.00" ∧
      (⟨"Quota", "", "A", false⟩ : AgentLog) ∈
        (processAgent c10Scheme [] 20240615 c10Scheme.qualificationRules
          c10Scheme.kpiConfig.qualificationFields "A" [c10Row]).1.agentLogs ∧
      ∀ e ∈ (processAgent c10Scheme [] 20240615 c10Scheme.qualificationRules
          c10Scheme.kpiConfig.qualificationFields "A" [c10Row]).1.agentLogs,
        e.ruleType ≠ "PayoutCalculation") ∧
    (c10Scheme.quotaAmount ≤
        (processAgent c10Scheme [] 20240615 c10Scheme.qualificationRules
          c10Scheme.kpiConfig.qualificationFields "A" [c10Row]).1.totalAdjusted →
      (processAgent c10Scheme [] 20240615 c10Scheme.qualificationRules
          c10Scheme.kpiConfig.qualificationFields "A" [c10Row]).1.payout =
        calculateTieredPayout
          (processAgent c10Scheme [] 20240615 c10Scheme.qualificationRules
            c10Scheme.kpiConfig.qualificationFields "A" [c10Row]).1.totalAdjusted
          c10Scheme.payoutTiers) :=
  C10_quota_gate c10Scheme [] 20240615 c10Scheme.qualificationRules
    c10Scheme.kpiConfig.qualificationFields "A" [c10Row]
    (by norm_num [c10Scheme, c1Scheme]) (by decide)

end IncentiveEngine
